import Mathlib

/-!
Verification of the change-detection engine of the crawler
(`core/scraper.py`, `adapters/base_adapter.py`, `models/database.py`).

The Python engine is shallowly embedded: the SQLAlchemy session becomes an
explicit `DB` value (lists of rows), `datetime.utcnow()` becomes a `Nat`
parameter `now`, SQL floats for prices become `Option Nat` (nullable column),
and Python truthiness tests (`if scraped_item.price:`, `if character:`) become
the explicit `priceTruthy` / `strTruthy` checks.  A `ChangeEvent` /
`PriceHistory` row refers to its listing by the dedup key
(item_id, platform_id, url) instead of the autoincrement `listing_id`;
this is the only abstraction of the relational identity.
-/

/-- Row of `ScrapedItem` (adapters/base_adapter.py, dataclass). -/
structure ScrapedItem where
  title : String
  url : String
  price : Option Nat
  status : String
  status_text : Option String
  image_url : Option String
  seller : Option String
  description : Option String
  metadata : Option String
deriving Repr, DecidableEq

/-- Row of the `listings` table (models/database.py, class Listing). -/
structure Listing where
  item_id : Nat
  platform_id : Nat
  title : String
  url : String
  price : Option Nat
  image_url : Option String
  status : String
  status_text : Option String
  seller : Option String
  description : Option String
  metadata : Option String
  first_seen : Nat
  last_seen : Nat
  last_checked : Nat
  is_active : Bool
deriving Repr, DecidableEq

/-- Row of the `change_events` table (models/database.py, class ChangeEvent);
the listing is referenced by its dedup key rather than its autoincrement id. -/
structure ChangeEvent where
  item_id : Nat
  platform_id : Nat
  url : String
  event_type : String
  description : String
  old_value : Option String
  new_value : Option String
  notified : Bool
deriving Repr, DecidableEq

/-- Row of the `price_history` table (models/database.py, class PriceHistory). -/
structure PriceHistory where
  item_id : Nat
  platform_id : Nat
  url : String
  price : Nat
  recorded_at : Nat
deriving Repr, DecidableEq

/-- Row of the `scrape_runs` table (models/database.py, class ScrapeRun). -/
structure ScrapeRun where
  status : String
  items_checked : Nat
  platforms_checked : Nat
  new_listings_found : Nat
  changes_detected : Nat
  error_count : Nat
  completed : Bool
  errors : Option String
deriving Repr, DecidableEq

/-- The mutable relational state touched by the engine. -/
structure DB where
  listings : List Listing
  events : List ChangeEvent
  history : List PriceHistory
deriving Repr, DecidableEq

/-- Engine state: the database plus `self.current_run` (an `Option`, as in the
Python engine before `start_scrape_run`). -/
structure EngineState where
  db : DB
  run : Option ScrapeRun
deriving Repr, DecidableEq

/-- Python truthiness of the nullable price column (`if scraped_item.price:`
is false for both `None` and `0`). -/
def priceTruthy : Option Nat → Bool
  | none => false
  | some p => !(p == 0)

/-- Python truthiness of a nullable string (`if scraped_item.image_url:` is
false for `None` and for the empty string). -/
def strTruthy : Option String → Bool
  | none => false
  | some s => !(s == "")

/-- Python `str(x)` on the nullable stored price (`str(None)` is the literal
string None). -/
def pyStrOfPrice : Option Nat → String
  | none => "None"
  | some p => toString p

/-- Numeric value written to a PriceHistory row (only ever used when the
incoming price is truthy, hence some nonzero value). -/
def priceVal : Option Nat → Nat
  | none => 0
  | some p => p

/-- Dedup key of a listing row: the (item_id, platform_id, url) triple. -/
def listingKey (l : Listing) : Nat × Nat × String :=
  (l.item_id, l.platform_id, l.url)

/-- Dedup key referenced by an event row. -/
def eventKey (e : ChangeEvent) : Nat × Nat × String :=
  (e.item_id, e.platform_id, e.url)

/-- The `filter_by(item_id=…, platform_id=…, url=…)` predicate of
`process_scraped_result` (core/scraper.py line 130). -/
def keyMatch (iid pid : Nat) (url : String) (l : Listing) : Bool :=
  l.item_id == iid && l.platform_id == pid && l.url == url

/-- The `.first()` query of `process_scraped_result`. -/
def findListing (db : DB) (iid pid : Nat) (url : String) : Option Listing :=
  db.listings.find? (keyMatch iid pid url)

/-- In-place mutation of the row returned by `.first()`: replace the first
element satisfying `p` in the session's row list. -/
def updateFirst (p : α → Bool) (f : α → α) : List α → List α
  | [] => []
  | x :: xs => if p x then f x :: xs else x :: updateFirst p f xs

/-- Listing built in the no-existing-listing branch of
`process_scraped_result` (core/scraper.py lines 141--157). -/
def newListingOf (iid pid : Nat) (r : ScrapedItem) (now : Nat) : Listing :=
  { item_id := iid, platform_id := pid, title := r.title, url := r.url,
    price := r.price, image_url := r.image_url, status := r.status,
    status_text := r.status_text, seller := r.seller,
    description := r.description, metadata := r.metadata,
    first_seen := now, last_seen := now, last_checked := now,
    is_active := true }

/-- The `new_item` ChangeEvent (core/scraper.py lines 162--168); its
`new_value` is the formatted price when truthy and the string N/A otherwise. -/
def newItemEvent (iid pid : Nat) (r : ScrapedItem) : ChangeEvent :=
  { item_id := iid, platform_id := pid, url := r.url,
    event_type := "new_item",
    description := "发现新商品: " ++ r.title,
    old_value := none,
    new_value := some (if priceTruthy r.price then "¥" ++ pyStrOfPrice r.price else "N/A"),
    notified := false }

/-- Guard of the price-change block (core/scraper.py line 190):
`scraped_item.price and scraped_item.price != listing.price`. -/
def priceChangeFires (r : ScrapedItem) (l : Listing) : Bool :=
  priceTruthy r.price && !(r.price == l.price)

/-- Guard of the status-change block (core/scraper.py line 215). -/
def statusChangeFires (r : ScrapedItem) (l : Listing) : Bool :=
  !(r.status == l.status)

/-- Event type chosen for a status transition (core/scraper.py lines
217--220): `sold_out` when the incoming status is sold, overridden to
`back_in_stock` when incoming is available and the stored status was sold,
otherwise `status_change`. -/
def statusEventTypeOf (incoming old : String) : String :=
  if incoming == "available" && old == "sold" then "back_in_stock"
  else if incoming == "sold" then "sold_out"
  else "status_change"

/-- The `price_change` ChangeEvent (core/scraper.py lines 192--199). -/
def priceChangeEvent (iid pid : Nat) (r : ScrapedItem) (l : Listing) : ChangeEvent :=
  { item_id := iid, platform_id := pid, url := r.url,
    event_type := "price_change",
    description := "价格变化: ¥" ++ pyStrOfPrice l.price ++ " → ¥" ++ pyStrOfPrice r.price,
    old_value := some (pyStrOfPrice l.price),
    new_value := some (pyStrOfPrice r.price),
    notified := false }

/-- The status-transition ChangeEvent (core/scraper.py lines 222--229). -/
def statusChangeEvent (iid pid : Nat) (r : ScrapedItem) (l : Listing) : ChangeEvent :=
  { item_id := iid, platform_id := pid, url := r.url,
    event_type := statusEventTypeOf r.status l.status,
    description := "状态变化: " ++ l.status ++ " → " ++ r.status,
    old_value := some l.status,
    new_value := some r.status,
    notified := false }

/-- Net effect on the found listing row of the update branch
(core/scraper.py lines 183--243): refresh `last_seen` / `last_checked`,
conditionally update price, status and status_text, and last-known-good
merge of image_url / seller / description. -/
def updateExisting (r : ScrapedItem) (now : Nat) (l : Listing) : Listing :=
  { l with
    last_seen := now, last_checked := now,
    price := if priceChangeFires r l then r.price else l.price,
    status := if statusChangeFires r l then r.status else l.status,
    status_text := if statusChangeFires r l then r.status_text else l.status_text,
    image_url := if strTruthy r.image_url then r.image_url else l.image_url,
    seller := if strTruthy r.seller then r.seller else l.seller,
    description := if strTruthy r.description then r.description else l.description }

/-- Events appended by the update branch, in program order (price event
before status event). -/
def existingEvents (iid pid : Nat) (r : ScrapedItem) (l : Listing) : List ChangeEvent :=
  (if priceChangeFires r l then [priceChangeEvent iid pid r l] else []) ++
  (if statusChangeFires r l then [statusChangeEvent iid pid r l] else [])

/-- The `changes_detected` list accumulated by the update branch. -/
def existingChanges (r : ScrapedItem) (l : Listing) : List String :=
  (if priceChangeFires r l then ["price_change"] else []) ++
  (if statusChangeFires r l then [statusEventTypeOf r.status l.status] else [])

/-- Run-statistics update at the end of `process_scraped_result`
(core/scraper.py lines 248--252): guarded by `if self.current_run` and
`if changes_detected`. -/
def updateRunCounters (run : Option ScrapeRun) (changes : List String) : Option ScrapeRun :=
  match run with
  | none => none
  | some ru =>
    if changes.isEmpty then some ru
    else some { ru with
      new_listings_found :=
        ru.new_listings_found + (if changes.contains "new_item" then 1 else 0),
      changes_detected := ru.changes_detected + changes.length }

/-- Shallow embedding of `ScraperEngine.process_scraped_result`
(core/scraper.py lines 114--254).  Returns the successor state together with
the Python return value (`listing if changes_detected else None`). -/
def processScrapedResult (iid pid : Nat) (r : ScrapedItem) (now : Nat)
    (st : EngineState) : EngineState × Option Listing :=
  match findListing st.db iid pid r.url with
  | none =>
    let L := newListingOf iid pid r now
    let db' : DB :=
      { listings := st.db.listings ++ [L],
        events := st.db.events ++ [newItemEvent iid pid r],
        history := st.db.history ++
          (if priceTruthy r.price then
            [{ item_id := iid, platform_id := pid, url := r.url,
               price := priceVal r.price, recorded_at := now }] else []) }
    ({ db := db', run := updateRunCounters st.run (["new_item"]) }, some L)
  | some l0 =>
    let L := updateExisting r now l0
    let changes := existingChanges r l0
    let db' : DB :=
      { listings := updateFirst (keyMatch iid pid r.url) (fun _ => L) st.db.listings,
        events := st.db.events ++ existingEvents iid pid r l0,
        history := st.db.history ++
          (if priceChangeFires r l0 then
            [{ item_id := iid, platform_id := pid, url := r.url,
               price := priceVal r.price, recorded_at := now }] else []) }
    ({ db := db', run := updateRunCounters st.run changes },
     if changes.isEmpty then none else some L)

/-- Subset of the `items` table columns that the engine and matcher read
(models/database.py, class Item). -/
structure Item where
  id : Nat
  character : String
  circle : String
  artist : String
deriving Repr, DecidableEq

/-- Row of the `platforms` table (models/database.py); only the columns the
orchestrator reads. -/
structure PlatformRec where
  id : Nat
  name : String
  enabled : Bool
deriving Repr, DecidableEq

/-- Outcome of `adapter.scrape_item(...)` as observed by `_scrape_platform`:
either the matched records of the returned SearchResult, or a raised
exception (caught at core/scraper.py line 302). -/
def AdapterFun : Type := Item → Except String (List ScrapedItem)

/-- The per-task statistics dictionary built by `_scrape_platform`
(core/scraper.py lines 263--269). -/
structure TaskStats where
  new_listings : Nat
  changes : Nat
  error : Option String
  success : Bool
deriving Repr, DecidableEq

/-- The `stats` dictionary of `scrape_all` (core/scraper.py lines 323--329). -/
structure RunStats where
  items_checked : Nat
  platforms_checked : Nat
  new_listings : Nat
  changes : Nat
  errors : Nat
deriving Repr, DecidableEq

/-- Fold of `process_scraped_result` over the records of one SearchResult
(core/scraper.py lines 291--294), counting the calls that returned a
listing (i.e. detected at least one change). -/
def processResults (iid pid : Nat) (rs : List ScrapedItem) (now : Nat)
    (st : EngineState) : EngineState × Nat :=
  rs.foldl
    (fun acc r =>
      let out := processScrapedResult iid pid r now acc.1
      (out.1, acc.2 + (if out.2.isSome then 1 else 0)))
    (st, 0)

/-- Shallow embedding of `ScraperEngine._scrape_platform`
(core/scraper.py lines 256--309): platform lookup, adapter call, reconcile
of every record, per-task stats; a raised adapter exception is caught,
recorded in the stats and counted on the Run. -/
def scrapePlatform (platforms : List PlatformRec) (item : Item)
    (pname : String) (adapter : AdapterFun) (now : Nat) (st : EngineState) :
    TaskStats × EngineState :=
  match platforms.find? (fun p => p.name == pname) with
  | none => ({ new_listings := 0, changes := 0, error := none, success := false }, st)
  | some p =>
    if p.enabled then
      match adapter item with
      | Except.error e =>
        ({ new_listings := 0, changes := 0, error := some e, success := false },
         { st with
           run := st.run.map
             (fun ru => { ru with error_count := ru.error_count + 1 }) })
      | Except.ok rs =>
        let out := processResults item.id p.id rs now st
        ({ new_listings := rs.length, changes := out.2, error := none,
           success := true }, out.1)
    else ({ new_listings := 0, changes := 0, error := none, success := false }, st)

/-- Accumulation of one task's stats into the pass stats
(core/scraper.py lines 376--382, identical to the aggregation in the
concurrent branch at lines 354--360). -/
def accumTask (s : RunStats) (t : TaskStats) : RunStats :=
  if t.success then
    { s with platforms_checked := s.platforms_checked + 1,
             new_listings := s.new_listings + t.new_listings,
             changes := s.changes + t.changes }
  else if t.error.isSome then { s with errors := s.errors + 1 }
  else s

/-- One product's pass over all registered adapters, in registration order. -/
def scrapeItemAllPlatforms (platforms : List PlatformRec) (item : Item)
    (adapters : List (String × AdapterFun)) (now : Nat)
    (acc : RunStats × EngineState) : RunStats × EngineState :=
  adapters.foldl
    (fun acc2 pa =>
      let out := scrapePlatform platforms item pa.1 pa.2 now acc2.2
      (accumTask acc2.1 out.1, out.2))
    acc

/-- Shallow embedding of `ScraperEngine.scrape_all` (core/scraper.py lines
311--393) in its sequential order.  In concurrent mode the coarse database
lock serializes all reconciles and the per-task stats are aggregated as each
future completes, so a concurrent pass is this fold over a permutation of
each product's platform tasks.  At the end of the pass only `items_checked`
and `platforms_checked` are mirrored into the Run row (lines 387--391). -/
def scrapeAllSeq (itemsL : List Item) (platforms : List PlatformRec)
    (adapters : List (String × AdapterFun)) (now : Nat) (st : EngineState) :
    RunStats × EngineState :=
  let out := itemsL.foldl
    (fun acc item =>
      let out := scrapeItemAllPlatforms platforms item adapters now acc
      ({ out.1 with items_checked := out.1.items_checked + 1 }, out.2))
    (({ items_checked := 0, platforms_checked := 0, new_listings := 0,
        changes := 0, errors := 0 } : RunStats), st)
  (out.1,
   { out.2 with
     run := out.2.run.map
       (fun ru => { ru with items_checked := out.1.items_checked,
                            platforms_checked := out.1.platforms_checked }) })

/-- Shallow embedding of `ScraperEngine.complete_scrape_run`
(core/scraper.py lines 104--112). -/
def completeScrapeRun (status : String) (errors : Option String)
    (st : EngineState) : EngineState :=
  { st with
    run := st.run.map
      (fun ru =>
        { ru with status := status, completed := true,
                  errors := if strTruthy errors then errors else ru.errors }) }

/-- One full orchestration pass as driven by `main.run_scraper`: since every
task failure is caught inside `_scrape_platform`, `scrape_all` returns
normally and the run is completed with status completed
(main.py lines 128--131). -/
def runScraperPass (itemsL : List Item) (platforms : List PlatformRec)
    (adapters : List (String × AdapterFun)) (now : Nat) (st : EngineState) :
    RunStats × EngineState :=
  let out := scrapeAllSeq itemsL platforms adapters now st
  (out.1, completeScrapeRun ("completed") none out.2)

/-- Bool test for a list of characters starting with another
(char-level embedding of Python string containment, helper). -/
def listStarts : List Char → List Char → Bool
  | [], _ => true
  | _ :: _, [] => false
  | a :: as, b :: bs => a == b && listStarts as bs

/-- Bool test for `needle` occurring contiguously in `hay`. -/
def listSub (needle : List Char) : List Char → Bool
  | [] => needle.isEmpty
  | b :: bs => listStarts needle (b :: bs) || listSub needle bs

/-- Python `needle in hay` on strings (substring containment). -/
def strContains (hay needle : String) : Bool :=
  listSub needle.data hay.data

/-- The fixed category-keyword list of `_is_exact_match`
(adapters/base_adapter.py line 220). -/
def dakimakuraKeywords : List String :=
  ["抱き枕", "だき枕", "ダキ枕", "カバー", "抱枕"]

/-- Shallow embedding of `BaseAdapter._is_exact_match`
(adapters/base_adapter.py lines 192--224); the artist attribute is read by
the source but never used. -/
def isExactMatch (title character circle artist : String) : Bool :=
  if !(character == "") && !(strContains title character) then false
  else if !(circle == "") && !(strContains title circle) then false
  else if !(dakimakuraKeywords.any (fun kw => strContains title kw)) then false
  else true


/-- One reconcile invocation: the item id, the platform id, the scraped
record and the wall-clock instant of the call. -/
structure ReconCall where
  iid : Nat
  pid : Nat
  record : ScrapedItem
  now : Nat
deriving Repr, DecidableEq

/-- Dedup key addressed by a reconcile call. -/
def callKey (c : ReconCall) : Nat × Nat × String :=
  (c.iid, c.pid, c.record.url)

/-- State transition of one reconcile call (discarding the return value). -/
def applyCall (st : EngineState) (c : ReconCall) : EngineState :=
  (processScrapedResult c.iid c.pid c.record c.now st).1

/-- Sequential execution of a list of reconcile calls.  Under the engine's
coarse database lock every concurrent schedule of reconciles is exactly one
such sequential execution. -/
def runCalls (cs : List ReconCall) (st : EngineState) : EngineState :=
  cs.foldl applyCall st

/-- The dedup invariant of the listings table: pairwise distinct
(item_id, platform_id, url) keys. -/
def dedupKeysDistinct (ls : List Listing) : Prop :=
  (ls.map listingKey).Pairwise (fun a b => a ≠ b)

/-- Observational equality of engine states up to row order of the three
append-only / set-like tables (autoincrement ids are not modelled, so row
order is the only representation freedom). -/
def stateEquiv (s t : EngineState) : Prop :=
  s.db.listings.Perm t.db.listings ∧ s.db.events.Perm t.db.events ∧
  s.db.history.Perm t.db.history ∧ s.run = t.run

/-- Keys of the `new_item` events present in an event log. -/
def newItemKeys (evs : List ChangeEvent) : List (Nat × Nat × String) :=
  (evs.filter (fun e => e.event_type == "new_item")).map eventKey

/-- Invariant tying `new_item` events to the listings table: no two
`new_item` events share a key, and every such key has a listing row. -/
def noDupNewItem (st : EngineState) : Prop :=
  (newItemKeys st.db.events).Pairwise (fun a b => a ≠ b) ∧
  ∀ k ∈ newItemKeys st.db.events, k ∈ st.db.listings.map listingKey

/-- Specification-side notion of literal substring (contiguous occurrence
of the needle's characters inside the hay). -/
def strSub (needle hay : String) : Prop :=
  ∃ l r, hay.data = l ++ needle.data ++ r

/-- Did `adapter.scrape_item` return normally? -/
def adapterOk : Except String (List ScrapedItem) → Bool
  | Except.ok _ => true
  | Except.error _ => false

/-- A platform task counts as successful when the platform row exists, is
enabled, and the adapter call returned normally. -/
def taskSucceedsB (platforms : List PlatformRec) (item : Item)
    (pa : String × AdapterFun) : Bool :=
  match platforms.find? (fun p => p.name == pa.1) with
  | none => false
  | some p => p.enabled && adapterOk (pa.2 item)

/-- A platform task counts as failed when the platform row exists and is
enabled but the adapter call raised. -/
def taskErrB (platforms : List PlatformRec) (item : Item)
    (pa : String × AdapterFun) : Bool :=
  match platforms.find? (fun p => p.name == pa.1) with
  | none => false
  | some p => p.enabled && !(adapterOk (pa.2 item))

/-- Number of matched records a platform task hands to the reconciler. -/
def taskRecCount (platforms : List PlatformRec) (item : Item)
    (pa : String × AdapterFun) : Nat :=
  match platforms.find? (fun p => p.name == pa.1) with
  | none => 0
  | some p =>
    if p.enabled then
      match pa.2 item with
      | Except.ok rs => rs.length
      | Except.error _ => 0
    else 0

/-- Sum of a per-task measure over the whole (product × platform) grid of
one pass. -/
def gridSum (itemsL : List Item) (adapters : List (String × AdapterFun))
    (g : Item → String × AdapterFun → Nat) : Nat :=
  (itemsL.map (fun item => (adapters.map (fun pa => g item pa)).sum)).sum

/-- Number of platform tasks of a pass that complete without raising. -/
def countSuccTasks (platforms : List PlatformRec) (itemsL : List Item)
    (adapters : List (String × AdapterFun)) : Nat :=
  gridSum itemsL adapters (fun i pa => if taskSucceedsB platforms i pa then 1 else 0)

/-- Number of platform tasks of a pass that raise. -/
def countErrTasks (platforms : List PlatformRec) (itemsL : List Item)
    (adapters : List (String × AdapterFun)) : Nat :=
  gridSum itemsL adapters (fun i pa => if taskErrB platforms i pa then 1 else 0)

/-- Total number of records returned by the successful tasks of a pass. -/
def countRecsTasks (platforms : List PlatformRec) (itemsL : List Item)
    (adapters : List (String × AdapterFun)) : Nat :=
  gridSum itemsL adapters (fun i pa => taskRecCount platforms i pa)

/-- A freshly started run row, as built by `start_scrape_run`. -/
def ruRunning : ScrapeRun :=
  { status := "running", items_checked := 0, platforms_checked := 0,
    new_listings_found := 0, changes_detected := 0, error_count := 0,
    completed := false, errors := none }

/-- Concrete listing row used as test input. -/
def sampleListing (status : String) (price : Option Nat) : Listing :=
  { item_id := 1, platform_id := 2, title := "t", url := "u", price := price,
    image_url := none, status := status, status_text := some "raw",
    seller := none, description := none, metadata := none,
    first_seen := 0, last_seen := 0, last_checked := 0, is_active := true }

/-- Concrete scraped record used as test input. -/
def sampleRecord (status : String) (price : Option Nat) : ScrapedItem :=
  { title := "t", url := "u", price := price, status := status,
    status_text := some "txt", image_url := none, seller := none,
    description := none, metadata := none }

/-- Engine state with the given listings, empty logs and a fresh run. -/
def stWith (ls : List Listing) : EngineState :=
  { db := { listings := ls, events := [], history := [] }, run := some ruRunning }

theorem keyMatch_iff (iid pid : Nat) (url : String) (l : Listing) :
    keyMatch iid pid url l = true ↔ listingKey l = (iid, pid, url) := by
  simp [keyMatch, listingKey, Bool.and_eq_true, beq_iff_eq, Prod.ext_iff,
    and_assoc]

theorem keyMatch_newListingOf (iid pid : Nat) (r : ScrapedItem) (now : Nat) :
    keyMatch iid pid r.url (newListingOf iid pid r now) = true := by
  simp [keyMatch, newListingOf]

theorem listingKey_updateExisting (r : ScrapedItem) (now : Nat) (l : Listing) :
    listingKey (updateExisting r now l) = listingKey l := rfl

theorem keyMatch_updateExisting (iid pid : Nat) (url : String)
    (r : ScrapedItem) (now : Nat) (l : Listing) :
    keyMatch iid pid url (updateExisting r now l) = keyMatch iid pid url l := rfl

theorem updateFirst_length (p : α → Bool) (f : α → α) (l : List α) :
    (updateFirst p f l).length = l.length := by
  induction l with
  | nil => rfl
  | cons x xs ih => simp only [updateFirst]; split <;> simp [ih]

theorem updateFirst_map (p : α → Bool) (f : α → α) (g : α → β) (l : List α)
    (h : ∀ a, p a = true → g (f a) = g a) :
    (updateFirst p f l).map g = l.map g := by
  induction l with
  | nil => rfl
  | cons x xs ih =>
    cases hx : p x with
    | true => simp [updateFirst, hx, h x hx]
    | false => simp [updateFirst, hx, ih]

theorem find?_append_here (p : α → Bool) (l₁ l₂ : List α) :
    (l₁ ++ l₂).find? p = ((l₁.find? p).orElse (fun _ => l₂.find? p)) := by
  induction l₁ with
  | nil => simp [List.find?]
  | cons x xs ih =>
    cases hx : p x with
    | true => simp [List.find?, hx]
    | false => simp [List.find?, hx, ih]

theorem updateFirst_find?_const (p : α → Bool) (b : α) (l : List α)
    (hb : p b = true) :
    (updateFirst p (fun _ => b) l).find? p = (l.find? p).map (fun _ => b) := by
  induction l with
  | nil => rfl
  | cons x xs ih =>
    cases hx : p x with
    | true => simp [updateFirst, hx, List.find?, hb]
    | false => simp [updateFirst, hx, List.find?, ih]

theorem processScrapedResult_none (iid pid : Nat) (r : ScrapedItem)
    (now : Nat) (st : EngineState)
    (h : findListing st.db iid pid r.url = none) :
    processScrapedResult iid pid r now st =
      ({ db := { listings := st.db.listings ++ [newListingOf iid pid r now],
                 events := st.db.events ++ [newItemEvent iid pid r],
                 history := st.db.history ++
                   (if priceTruthy r.price then
                     [{ item_id := iid, platform_id := pid, url := r.url,
                        price := priceVal r.price, recorded_at := now }] else []) },
         run := updateRunCounters st.run (["new_item"]) },
       some (newListingOf iid pid r now)) := by
  unfold processScrapedResult
  rw [h]

theorem processScrapedResult_some (iid pid : Nat) (r : ScrapedItem)
    (now : Nat) (st : EngineState) (l0 : Listing)
    (h : findListing st.db iid pid r.url = some l0) :
    processScrapedResult iid pid r now st =
      ({ db := { listings := updateFirst (keyMatch iid pid r.url)
                   (fun _ => updateExisting r now l0) st.db.listings,
                 events := st.db.events ++ existingEvents iid pid r l0,
                 history := st.db.history ++
                   (if priceChangeFires r l0 then
                     [{ item_id := iid, platform_id := pid, url := r.url,
                        price := priceVal r.price, recorded_at := now }] else []) },
         run := updateRunCounters st.run (existingChanges r l0) },
       if (existingChanges r l0).isEmpty then none
       else some (updateExisting r now l0)) := by
  unfold processScrapedResult
  rw [h]

/-- C2: for a record with no existing listing at its key, one reconcile call
creates exactly one listing whose fields are taken from the record (with
is_active true and first_seen = last_seen = last_checked = now), emits
exactly one `new_item` ChangeEvent, appends one PriceHistory row iff the
record's price is present (Python truthiness of `scraped_item.price`:
non-null and non-zero), and returns the new listing. -/
theorem c2_new_listing_branch (iid pid : Nat) (r : ScrapedItem) (now : Nat)
    (st : EngineState)
    (h : findListing st.db iid pid r.url = none) :
    ∃ L : Listing,
      (processScrapedResult iid pid r now st).1.db.listings
        = st.db.listings ++ [L] ∧
      L.item_id = iid ∧ L.platform_id = pid ∧ L.url = r.url ∧
      L.title = r.title ∧ L.price = r.price ∧ L.status = r.status ∧
      L.status_text = r.status_text ∧ L.image_url = r.image_url ∧
      L.seller = r.seller ∧ L.description = r.description ∧
      L.is_active = true ∧ L.first_seen = now ∧ L.last_seen = now ∧
      L.last_checked = now ∧
      (∃ ev : ChangeEvent,
        (processScrapedResult iid pid r now st).1.db.events
          = st.db.events ++ [ev] ∧ ev.event_type = "new_item") ∧
      (processScrapedResult iid pid r now st).1.db.history.length
        = st.db.history.length + (if priceTruthy r.price then 1 else 0) ∧
      (processScrapedResult iid pid r now st).2 = some L := by
  refine ⟨newListingOf iid pid r now, ?_⟩
  rw [processScrapedResult_none iid pid r now st h]
  refine ⟨rfl, rfl, rfl, rfl, rfl, rfl, rfl, rfl, rfl, rfl, rfl, rfl, rfl,
    rfl, rfl, ⟨newItemEvent iid pid r, rfl, rfl⟩, ?_, rfl⟩
  cases hp : priceTruthy r.price <;> simp [hp]

/-- C2 witness: the theorem applied to a fresh store and a priced record. -/
theorem c2_new_listing_branch_witness :
    ∃ L : Listing,
      (processScrapedResult 1 2 (sampleRecord ("available") (some 1000)) 7
          (stWith [])).1.db.listings
        = (stWith []).db.listings ++ [L] ∧
      L.item_id = 1 ∧ L.platform_id = 2 ∧
      L.url = (sampleRecord ("available") (some 1000)).url ∧
      L.title = (sampleRecord ("available") (some 1000)).title ∧
      L.price = (sampleRecord ("available") (some 1000)).price ∧
      L.status = (sampleRecord ("available") (some 1000)).status ∧
      L.status_text = (sampleRecord ("available") (some 1000)).status_text ∧
      L.image_url = (sampleRecord ("available") (some 1000)).image_url ∧
      L.seller = (sampleRecord ("available") (some 1000)).seller ∧
      L.description = (sampleRecord ("available") (some 1000)).description ∧
      L.is_active = true ∧ L.first_seen = 7 ∧ L.last_seen = 7 ∧
      L.last_checked = 7 ∧
      (∃ ev : ChangeEvent,
        (processScrapedResult 1 2 (sampleRecord ("available") (some 1000)) 7
            (stWith [])).1.db.events
          = (stWith []).db.events ++ [ev] ∧ ev.event_type = "new_item") ∧
      (processScrapedResult 1 2 (sampleRecord ("available") (some 1000)) 7
          (stWith [])).1.db.history.length
        = (stWith []).db.history.length +
            (if priceTruthy (sampleRecord ("available") (some 1000)).price
             then 1 else 0) ∧
      (processScrapedResult 1 2 (sampleRecord ("available") (some 1000)) 7
          (stWith [])).2 = some L :=
  c2_new_listing_branch 1 2 (sampleRecord ("available") (some 1000)) 7
    (stWith []) (by decide)

theorem statusEventTypeOf_eq (incoming old : String) :
    statusEventTypeOf incoming old =
      (if incoming = "sold" then "sold_out"
       else if incoming = "available" ∧ old = "sold" then "back_in_stock"
       else "status_change") := by
  unfold statusEventTypeOf
  by_cases h1 : incoming = "available" <;> by_cases h2 : old = "sold" <;>
    by_cases h3 : incoming = "sold" <;>
      simp [h1, h2, h3]

/-- C1 counterexample: on a listing stored as ended, an incoming available
record yields a `status_change` event, not the `back_in_stock` event the
claim requires for stored ended. -/
theorem c1_ended_to_available_counterexample :
    ((processScrapedResult 1 2 (sampleRecord ("available") (some 100)) 7
        (stWith [sampleListing ("ended") (some 100)])).1.db.events.map
      (fun e => e.event_type) = ["status_change"]) ∧
    ("status_change" : String) ≠ "back_in_stock" := by
  exact ⟨by decide, by decide⟩

/-- C1 (amended): on an existing listing whose stored status differs from
the incoming one, the final appended event is the status event: its type is
`back_in_stock` exactly for the sold→available transition (stored ended
gives `status_change`), `sold_out` whenever the incoming status is sold,
and `status_change` for any other differing pair; the stored status and
status_text are updated to the incoming values in every case.  Any earlier
appended event of the call is a `price_change`. -/
theorem c1_status_transition_amended (iid pid : Nat) (r : ScrapedItem)
    (now : Nat) (st : EngineState) (l0 : Listing)
    (h : findListing st.db iid pid r.url = some l0)
    (hs : r.status ≠ l0.status) :
    ∃ pre ev,
      (processScrapedResult iid pid r now st).1.db.events
        = st.db.events ++ pre ++ [ev] ∧
      (∀ e ∈ pre, e.event_type = "price_change") ∧
      ev.event_type =
        (if r.status = "sold" then "sold_out"
         else if r.status = "available" ∧ l0.status = "sold" then "back_in_stock"
         else "status_change") ∧
      ev.old_value = some l0.status ∧ ev.new_value = some r.status ∧
      ∃ l1, findListing (processScrapedResult iid pid r now st).1.db iid pid
          r.url = some l1 ∧ l1.status = r.status ∧
          l1.status_text = r.status_text := by
  have hfire : statusChangeFires r l0 = true := by
    simp [statusChangeFires]
    exact hs
  have hk0 : keyMatch iid pid r.url l0 = true := List.find?_some h
  have hkL : keyMatch iid pid r.url (updateExisting r now l0) = true := by
    rw [keyMatch_updateExisting]
    exact hk0
  rw [processScrapedResult_some iid pid r now st l0 h]
  refine ⟨if priceChangeFires r l0 then [priceChangeEvent iid pid r l0]
      else [], statusChangeEvent iid pid r l0, ?_, ?_, ?_, rfl, rfl, ?_⟩
  · simp only [existingEvents, hfire, if_true, List.append_assoc]
  · intro e he
    cases hp : priceChangeFires r l0
    · simp [hp] at he
    · simp [hp] at he
      subst he
      rfl
  · show statusEventTypeOf r.status l0.status = _
    exact statusEventTypeOf_eq r.status l0.status
  · refine ⟨updateExisting r now l0, ?_, ?_, ?_⟩
    · show (updateFirst (keyMatch iid pid r.url)
          (fun _ => updateExisting r now l0) st.db.listings).find?
          (keyMatch iid pid r.url) = some (updateExisting r now l0)
      rw [updateFirst_find?_const _ _ _ hkL]
      have h' : st.db.listings.find? (keyMatch iid pid r.url) = some l0 := h
      rw [h']
      rfl
    · simp [updateExisting, hfire]
    · simp [updateExisting, hfire]

/-- C1 witness: a sold→available transition at a concrete input, via the
amended theorem. -/
theorem c1_status_transition_witness :
    ∃ pre ev,
      (processScrapedResult 1 2 (sampleRecord ("available") (some 100)) 7
          (stWith [sampleListing ("sold") (some 100)])).1.db.events
        = (stWith [sampleListing ("sold") (some 100)]).db.events ++ pre
            ++ [ev] ∧
      (∀ e ∈ pre, e.event_type = "price_change") ∧
      ev.event_type =
        (if (sampleRecord ("available") (some 100)).status = "sold"
         then "sold_out"
         else if (sampleRecord ("available") (some 100)).status = "available"
             ∧ (sampleListing ("sold") (some 100)).status = "sold"
           then "back_in_stock"
         else "status_change") ∧
      ev.old_value = some (sampleListing ("sold") (some 100)).status ∧
      ev.new_value = some (sampleRecord ("available") (some 100)).status ∧
      ∃ l1, findListing (processScrapedResult 1 2
          (sampleRecord ("available") (some 100)) 7
          (stWith [sampleListing ("sold") (some 100)])).1.db 1 2
          (sampleRecord ("available") (some 100)).url = some l1 ∧
        l1.status = (sampleRecord ("available") (some 100)).status ∧
        l1.status_text = (sampleRecord ("available") (some 100)).status_text :=
  c1_status_transition_amended 1 2 (sampleRecord ("available") (some 100)) 7
    (stWith [sampleListing ("sold") (some 100)])
    (sampleListing ("sold") (some 100)) (by decide) (by decide)

theorem statusEventTypeOf_ne_price_change (a b : String) :
    statusEventTypeOf a b ≠ "price_change" := by
  unfold statusEventTypeOf
  split
  · decide
  · split
    · decide
    · decide

theorem statusEventTypeOf_mem (a b : String) :
    statusEventTypeOf a b ∈
      (["sold_out", "back_in_stock", "status_change"] : List String) := by
  unfold statusEventTypeOf
  split
  · simp
  · split <;> simp

theorem statusEventTypeOf_beq_new_item (a b : String) :
    (statusEventTypeOf a b == "new_item") = false := by
  unfold statusEventTypeOf
  split
  · decide
  · split
    · decide
    · decide

theorem new_item_ne_statusEventTypeOf (a b : String) :
    ¬("new_item" = statusEventTypeOf a b) := by
  unfold statusEventTypeOf
  split
  · decide
  · split
    · decide
    · decide

/-- C9: a price of 0 is indistinguishable from an absent price at the
reconciler boundary.  On an existing listing with a non-null non-zero
stored price, a record whose price is not truthy (0 or None) emits no
`price_change` event, appends no PriceHistory row and leaves the stored
price unchanged; and a listing created from a record with price 0 gets no
PriceHistory row while its `new_item` event records N/A as new value. -/
theorem c9_zero_price_boundary :
    (∀ (iid pid : Nat) (r : ScrapedItem) (now : Nat) (st : EngineState)
        (l0 : Listing),
      findListing st.db iid pid r.url = some l0 →
      priceTruthy l0.price = true → priceTruthy r.price = false →
      (∃ evs, (processScrapedResult iid pid r now st).1.db.events
          = st.db.events ++ evs ∧
        ∀ e ∈ evs, e.event_type ≠ "price_change") ∧
      (processScrapedResult iid pid r now st).1.db.history = st.db.history ∧
      ∃ l1, findListing (processScrapedResult iid pid r now st).1.db iid pid
          r.url = some l1 ∧ l1.price = l0.price) ∧
    (∀ (iid pid : Nat) (r : ScrapedItem) (now : Nat) (st : EngineState),
      findListing st.db iid pid r.url = none → r.price = some 0 →
      (processScrapedResult iid pid r now st).1.db.history = st.db.history ∧
      ∃ ev, (processScrapedResult iid pid r now st).1.db.events
          = st.db.events ++ [ev] ∧ ev.event_type = "new_item" ∧
        ev.new_value = some ("N/A")) := by
  constructor
  · intro iid pid r now st l0 h _hl hp
    have hfireP : priceChangeFires r l0 = false := by
      simp [priceChangeFires, hp]
    have hk0 : keyMatch iid pid r.url l0 = true := List.find?_some h
    have hkL : keyMatch iid pid r.url (updateExisting r now l0) = true := by
      rw [keyMatch_updateExisting]
      exact hk0
    rw [processScrapedResult_some iid pid r now st l0 h]
    refine ⟨⟨existingEvents iid pid r l0, rfl, ?_⟩, ?_, ?_⟩
    · intro e he
      simp only [existingEvents, hfireP, if_false, List.nil_append] at he
      cases hsf : statusChangeFires r l0
      · simp [hsf] at he
      · simp [hsf] at he
        subst he
        exact statusEventTypeOf_ne_price_change r.status l0.status
    · simp [hfireP]
    · refine ⟨updateExisting r now l0, ?_, ?_⟩
      · show (updateFirst (keyMatch iid pid r.url)
            (fun _ => updateExisting r now l0) st.db.listings).find?
            (keyMatch iid pid r.url) = some (updateExisting r now l0)
        rw [updateFirst_find?_const _ _ _ hkL]
        have h' : st.db.listings.find? (keyMatch iid pid r.url) = some l0 := h
        rw [h']
        rfl
      · simp [updateExisting, hfireP]
  · intro iid pid r now st h hz
    rw [processScrapedResult_none iid pid r now st h]
    have hp : priceTruthy r.price = false := by
      rw [hz]
      rfl
    refine ⟨by simp [hp], newItemEvent iid pid r, rfl, rfl, ?_⟩
    simp [newItemEvent, hp]

/-- C9 witness: both parts of the theorem applied at concrete inputs (a
priced listing receiving a zero-priced record; a fresh key with a
zero-priced record). -/
theorem c9_zero_price_boundary_witness :
    ((∃ evs, (processScrapedResult 1 2 (sampleRecord ("ended") (some 0)) 7
          (stWith [sampleListing ("ended") (some 100)])).1.db.events
        = (stWith [sampleListing ("ended") (some 100)]).db.events ++ evs ∧
      ∀ e ∈ evs, e.event_type ≠ "price_change") ∧
     (processScrapedResult 1 2 (sampleRecord ("ended") (some 0)) 7
        (stWith [sampleListing ("ended") (some 100)])).1.db.history
       = (stWith [sampleListing ("ended") (some 100)]).db.history ∧
     ∃ l1, findListing (processScrapedResult 1 2
          (sampleRecord ("ended") (some 0)) 7
          (stWith [sampleListing ("ended") (some 100)])).1.db 1 2
          (sampleRecord ("ended") (some 0)).url = some l1 ∧
       l1.price = (sampleListing ("ended") (some 100)).price) ∧
    ((processScrapedResult 1 2 (sampleRecord ("available") (some 0)) 7
        (stWith [])).1.db.history = (stWith []).db.history ∧
     ∃ ev, (processScrapedResult 1 2 (sampleRecord ("available") (some 0)) 7
          (stWith [])).1.db.events = (stWith []).db.events ++ [ev] ∧
       ev.event_type = "new_item" ∧ ev.new_value = some ("N/A")) :=
  ⟨c9_zero_price_boundary.1 1 2 (sampleRecord ("ended") (some 0)) 7
      (stWith [sampleListing ("ended") (some 100)])
      (sampleListing ("ended") (some 100)) (by decide) (by decide) (by decide),
   c9_zero_price_boundary.2 1 2 (sampleRecord ("available") (some 0)) 7
      (stWith []) (by decide) (by decide)⟩

/-- C3: when both the price (incoming price present) and the status of an
existing listing differ from the incoming record, the call emits two
separate ChangeEvents — one `price_change` and one status-transition
event — not a combined one, and the Run's changes_detected counter grows
by the number of emitted events (2 here) while new_listings_found does not
move; in general changes_detected grows by the exact number of events any
call appends, and new_listings_found grows by 1 exactly when the call took
the no-existing-listing branch. -/
theorem c3_simultaneous_changes :
    (∀ (iid pid : Nat) (r : ScrapedItem) (now : Nat) (st : EngineState)
        (l0 : Listing) (ru : ScrapeRun),
      findListing st.db iid pid r.url = some l0 →
      priceTruthy r.price = true → r.price ≠ l0.price →
      r.status ≠ l0.status → st.run = some ru →
      ∃ e1 e2,
        (processScrapedResult iid pid r now st).1.db.events
          = st.db.events ++ [e1, e2] ∧
        e1.event_type = "price_change" ∧
        e2.event_type ∈
          (["sold_out", "back_in_stock", "status_change"] : List String) ∧
        ∃ ru', (processScrapedResult iid pid r now st).1.run = some ru' ∧
          ru'.changes_detected = ru.changes_detected + 2 ∧
          ru'.new_listings_found = ru.new_listings_found) ∧
    (∀ (iid pid : Nat) (r : ScrapedItem) (now : Nat) (st : EngineState)
        (ru : ScrapeRun),
      st.run = some ru →
      ∃ evs ru',
        (processScrapedResult iid pid r now st).1.db.events
          = st.db.events ++ evs ∧
        (processScrapedResult iid pid r now st).1.run = some ru' ∧
        ru'.changes_detected = ru.changes_detected + evs.length ∧
        ru'.new_listings_found = ru.new_listings_found +
          (if findListing st.db iid pid r.url = none then 1 else 0)) := by
  constructor
  · intro iid pid r now st l0 ru h hp hne hs hr
    have hfireP : priceChangeFires r l0 = true := by
      simp [priceChangeFires, hp]
      exact hne
    have hfireS : statusChangeFires r l0 = true := by
      simp [statusChangeFires]
      exact hs
    rw [processScrapedResult_some iid pid r now st l0 h]
    refine ⟨priceChangeEvent iid pid r l0, statusChangeEvent iid pid r l0,
      ?_, rfl, statusEventTypeOf_mem r.status l0.status, ?_⟩
    · simp [existingEvents, hfireP, hfireS]
    · rw [hr]
      simp [updateRunCounters, existingChanges, hfireP, hfireS,
        List.contains, statusEventTypeOf_beq_new_item,
        new_item_ne_statusEventTypeOf]
  · intro iid pid r now st ru hr
    cases h : findListing st.db iid pid r.url with
    | none =>
      rw [processScrapedResult_none iid pid r now st h, hr]
      refine ⟨[newItemEvent iid pid r], ?_⟩
      simp [updateRunCounters, List.contains]
    | some l0 =>
      rw [processScrapedResult_some iid pid r now st l0 h, hr]
      refine ⟨existingEvents iid pid r l0, ?_⟩
      cases hfp : priceChangeFires r l0 <;>
        cases hfs : statusChangeFires r l0 <;>
          simp [updateRunCounters, existingChanges, existingEvents, hfp, hfs,
            List.contains, statusEventTypeOf_beq_new_item,
            new_item_ne_statusEventTypeOf]

/-- C3 witness: both conjuncts applied at concrete inputs — a listing whose
price and status both change, and an arbitrary call for the counter law. -/
theorem c3_simultaneous_changes_witness :
    (∃ e1 e2,
      (processScrapedResult 1 2 (sampleRecord ("sold") (some 200)) 7
          (stWith [sampleListing ("available") (some 100)])).1.db.events
        = (stWith [sampleListing ("available") (some 100)]).db.events
            ++ [e1, e2] ∧
      e1.event_type = "price_change" ∧
      e2.event_type ∈
        (["sold_out", "back_in_stock", "status_change"] : List String) ∧
      ∃ ru', (processScrapedResult 1 2 (sampleRecord ("sold") (some 200)) 7
          (stWith [sampleListing ("available") (some 100)])).1.run
            = some ru' ∧
        ru'.changes_detected = ruRunning.changes_detected + 2 ∧
        ru'.new_listings_found = ruRunning.new_listings_found) ∧
    (∃ evs ru',
      (processScrapedResult 1 2 (sampleRecord ("sold") (some 200)) 7
          (stWith [])).1.db.events = (stWith []).db.events ++ evs ∧
      (processScrapedResult 1 2 (sampleRecord ("sold") (some 200)) 7
          (stWith [])).1.run = some ru' ∧
      ru'.changes_detected = ruRunning.changes_detected + evs.length ∧
      ru'.new_listings_found = ruRunning.new_listings_found +
        (if findListing (stWith []).db 1 2
            (sampleRecord ("sold") (some 200)).url = none then 1 else 0)) :=
  ⟨c3_simultaneous_changes.1 1 2 (sampleRecord ("sold") (some 200)) 7
      (stWith [sampleListing ("available") (some 100)])
      (sampleListing ("available") (some 100)) ruRunning (by decide)
      (by decide) (by decide) (by decide) rfl,
   c3_simultaneous_changes.2 1 2 (sampleRecord ("sold") (some 200)) 7
      (stWith []) ruRunning rfl⟩

theorem settled_after_call (iid pid : Nat) (r : ScrapedItem) (now : Nat)
    (st : EngineState) :
    ∃ l1, findListing (processScrapedResult iid pid r now st).1.db iid pid
        r.url = some l1 ∧
      priceChangeFires r l1 = false ∧ statusChangeFires r l1 = false := by
  cases h : findListing st.db iid pid r.url with
  | none =>
    rw [processScrapedResult_none iid pid r now st h]
    refine ⟨newListingOf iid pid r now, ?_, ?_, ?_⟩
    · show (st.db.listings ++ [newListingOf iid pid r now]).find?
        (keyMatch iid pid r.url) = some (newListingOf iid pid r now)
      rw [find?_append_here]
      have h' : st.db.listings.find? (keyMatch iid pid r.url) = none := h
      rw [h']
      simp [List.find?, keyMatch_newListingOf]
    · simp [priceChangeFires, newListingOf]
    · simp [statusChangeFires, newListingOf]
  | some l0 =>
    rw [processScrapedResult_some iid pid r now st l0 h]
    have hk0 : keyMatch iid pid r.url l0 = true := List.find?_some h
    have hkL : keyMatch iid pid r.url (updateExisting r now l0) = true := by
      rw [keyMatch_updateExisting]
      exact hk0
    refine ⟨updateExisting r now l0, ?_, ?_, ?_⟩
    · show (updateFirst (keyMatch iid pid r.url)
          (fun _ => updateExisting r now l0) st.db.listings).find?
          (keyMatch iid pid r.url) = some (updateExisting r now l0)
      rw [updateFirst_find?_const _ _ _ hkL]
      have h' : st.db.listings.find? (keyMatch iid pid r.url) = some l0 := h
      rw [h']
      rfl
    · have hpr : (updateExisting r now l0).price
          = (if priceChangeFires r l0 then r.price else l0.price) := rfl
      cases hfp : priceChangeFires r l0 with
      | false =>
        unfold priceChangeFires
        rw [hpr, hfp, if_neg (by simp)]
        exact hfp
      | true =>
        unfold priceChangeFires
        rw [hpr, hfp, if_pos rfl]
        simp
    · have hst : (updateExisting r now l0).status
          = (if statusChangeFires r l0 then r.status else l0.status) := rfl
      cases hfs : statusChangeFires r l0 with
      | false =>
        unfold statusChangeFires
        rw [hst, hfs, if_neg (by simp)]
        exact hfs
      | true =>
        unfold statusChangeFires
        rw [hst, hfs, if_pos rfl]
        simp

theorem second_call_noop (iid pid : Nat) (r : ScrapedItem) (now : Nat)
    (st : EngineState) (l1 : Listing)
    (h : findListing st.db iid pid r.url = some l1)
    (hfp : priceChangeFires r l1 = false)
    (hfs : statusChangeFires r l1 = false) :
    (processScrapedResult iid pid r now st).1.db.events = st.db.events ∧
    (processScrapedResult iid pid r now st).1.db.history = st.db.history ∧
    (processScrapedResult iid pid r now st).1.run = st.run ∧
    (processScrapedResult iid pid r now st).2 = none ∧
    ∃ l2, findListing (processScrapedResult iid pid r now st).1.db iid pid
        r.url = some l2 ∧ l2.last_seen = now ∧ l2.last_checked = now := by
  have hk1 : keyMatch iid pid r.url l1 = true := List.find?_some h
  have hkL : keyMatch iid pid r.url (updateExisting r now l1) = true := by
    rw [keyMatch_updateExisting]
    exact hk1
  rw [processScrapedResult_some iid pid r now st l1 h]
  refine ⟨?_, ?_, ?_, ?_, updateExisting r now l1, ?_, rfl, rfl⟩
  · simp [existingEvents, hfp, hfs]
  · simp [hfp]
  · simp [existingChanges, hfp, hfs, updateRunCounters]
    cases st.run <;> rfl
  · simp [existingChanges, hfp, hfs]
  · show (updateFirst (keyMatch iid pid r.url)
        (fun _ => updateExisting r now l1) st.db.listings).find?
        (keyMatch iid pid r.url) = some (updateExisting r now l1)
    rw [updateFirst_find?_const _ _ _ hkL]
    have h' : st.db.listings.find? (keyMatch iid pid r.url) = some l1 := h
    rw [h']
    rfl

/-- C4: reconciling an unchanged record twice in a row — the second call
still refreshes last_seen / last_checked on the listing, but emits zero
ChangeEvents, appends zero PriceHistory rows, leaves the run counters
untouched and returns None. -/
theorem c4_reconcile_idempotent (iid pid : Nat) (r : ScrapedItem)
    (now1 now2 : Nat) (st : EngineState) :
    (processScrapedResult iid pid r now2
        (processScrapedResult iid pid r now1 st).1).1.db.events
      = (processScrapedResult iid pid r now1 st).1.db.events ∧
    (processScrapedResult iid pid r now2
        (processScrapedResult iid pid r now1 st).1).1.db.history
      = (processScrapedResult iid pid r now1 st).1.db.history ∧
    (processScrapedResult iid pid r now2
        (processScrapedResult iid pid r now1 st).1).1.run
      = (processScrapedResult iid pid r now1 st).1.run ∧
    (processScrapedResult iid pid r now2
        (processScrapedResult iid pid r now1 st).1).2 = none ∧
    ∃ l2, findListing (processScrapedResult iid pid r now2
        (processScrapedResult iid pid r now1 st).1).1.db iid pid r.url
        = some l2 ∧ l2.last_seen = now2 ∧ l2.last_checked = now2 := by
  obtain ⟨l1, hfind, hfp, hfs⟩ := settled_after_call iid pid r now1 st
  exact second_call_noop iid pid r now2
    (processScrapedResult iid pid r now1 st).1 l1 hfind hfp hfs

theorem listingKey_newListingOf (iid pid : Nat) (r : ScrapedItem)
    (now : Nat) :
    listingKey (newListingOf iid pid r now) = (iid, pid, r.url) := rfl

theorem dedup_preserved (st : EngineState) (c : ReconCall) :
    dedupKeysDistinct st.db.listings →
    dedupKeysDistinct (applyCall st c).db.listings := by
  intro hinv
  unfold applyCall
  cases h : findListing st.db c.iid c.pid c.record.url with
  | none =>
    rw [processScrapedResult_none c.iid c.pid c.record c.now st h]
    unfold dedupKeysDistinct at hinv ⊢
    rw [List.map_append, List.pairwise_append]
    refine ⟨hinv, by simp, ?_⟩
    intro a ha b hb
    simp only [List.map_cons, List.map_nil, List.mem_singleton] at hb
    subst hb
    obtain ⟨la, hla, rfl⟩ := List.mem_map.mp ha
    rw [listingKey_newListingOf]
    intro hcontra
    have hmatch : keyMatch c.iid c.pid c.record.url la = true :=
      (keyMatch_iff c.iid c.pid c.record.url la).mpr hcontra
    have hnone : ∀ x ∈ st.db.listings,
        ¬ keyMatch c.iid c.pid c.record.url x = true :=
      fun x hx => by
        have := List.find?_eq_none.mp h x hx
        simpa using this
    exact hnone la hla hmatch
  | some l0 =>
    rw [processScrapedResult_some c.iid c.pid c.record c.now st l0 h]
    unfold dedupKeysDistinct at hinv ⊢
    have hmap : (updateFirst (keyMatch c.iid c.pid c.record.url)
        (fun _ => updateExisting c.record c.now l0) st.db.listings).map
          listingKey = st.db.listings.map listingKey := by
      apply updateFirst_map
      intro a ha
      rw [listingKey_updateExisting]
      have h1 := (keyMatch_iff c.iid c.pid c.record.url a).mp ha
      have h2 := (keyMatch_iff c.iid c.pid c.record.url l0).mp
        (List.find?_some h)
      rw [h1, h2]
    rw [hmap]
    exact hinv

/-- C5: across any sequence of reconcile calls the listings table keeps at
most one row per (item_id, platform_id, url) key, and a call whose key
already has a listing never creates a second row (the listings count is
unchanged; it updates in place). -/
theorem c5_dedup_invariant (cs : List ReconCall) (st : EngineState)
    (h : dedupKeysDistinct st.db.listings) :
    dedupKeysDistinct (runCalls cs st).db.listings ∧
    ∀ (iid pid : Nat) (r : ScrapedItem) (now : Nat) (st' : EngineState),
      (findListing st'.db iid pid r.url).isSome = true →
      (processScrapedResult iid pid r now st').1.db.listings.length
        = st'.db.listings.length := by
  constructor
  · unfold runCalls
    induction cs generalizing st with
    | nil => exact h
    | cons c cs ih => exact ih (applyCall st c) (dedup_preserved st c h)
  · intro iid pid r now st' hsome
    obtain ⟨l0, h0⟩ := Option.isSome_iff_exists.mp hsome
    rw [processScrapedResult_some iid pid r now st' l0 h0]
    exact updateFirst_length _ _ _

/-- C5 witness: two calls sharing the key (1, 2, u) starting from an empty
store, via the invariant theorem. -/
theorem c5_dedup_invariant_witness :
    dedupKeysDistinct (runCalls
      [{ iid := 1, pid := 2, record := sampleRecord ("available") (some 100),
         now := 5 },
       { iid := 1, pid := 2, record := sampleRecord ("sold") (some 200),
         now := 6 }] (stWith [])).db.listings ∧
    ∀ (iid pid : Nat) (r : ScrapedItem) (now : Nat) (st' : EngineState),
      (findListing st'.db iid pid r.url).isSome = true →
      (processScrapedResult iid pid r now st').1.db.listings.length
        = st'.db.listings.length :=
  c5_dedup_invariant
    [{ iid := 1, pid := 2, record := sampleRecord ("available") (some 100),
       now := 5 },
     { iid := 1, pid := 2, record := sampleRecord ("sold") (some 200),
       now := 6 }] (stWith []) (by exact List.Pairwise.nil)

theorem listStarts_iff (n h : List Char) :
    listStarts n h = true ↔ ∃ t, h = n ++ t := by
  induction n generalizing h with
  | nil => simp [listStarts]
  | cons a as ih =>
    cases h with
    | nil => simp [listStarts]
    | cons b bs =>
      simp only [listStarts, Bool.and_eq_true, beq_iff_eq, ih,
        List.cons_append, List.cons.injEq]
      constructor
      · rintro ⟨rfl, t, rfl⟩
        exact ⟨t, rfl, rfl⟩
      · rintro ⟨t, rfl, rfl⟩
        exact ⟨rfl, t, rfl⟩

theorem listSub_iff (n h : List Char) :
    listSub n h = true ↔ ∃ l r, h = l ++ n ++ r := by
  induction h with
  | nil =>
    simp only [listSub, List.isEmpty_iff]
    constructor
    · rintro rfl
      exact ⟨[], [], rfl⟩
    · rintro ⟨l, r, hlr⟩
      rcases List.append_eq_nil.mp (List.append_eq_nil.mp hlr.symm).1 with ⟨_, h2⟩
      exact h2
  | cons b bs ih =>
    simp only [listSub, Bool.or_eq_true, ih, listStarts_iff]
    constructor
    · rintro (⟨t, ht⟩ | ⟨l, r, rfl⟩)
      · exact ⟨[], t, by simpa using ht⟩
      · exact ⟨b :: l, r, rfl⟩
    · rintro ⟨l, r, hl⟩
      cases l with
      | nil =>
        left
        exact ⟨r, by simpa using hl⟩
      | cons x xs =>
        simp only [List.cons_append, List.cons.injEq] at hl
        obtain ⟨rfl, rfl⟩ := hl
        right
        exact ⟨xs, r, rfl⟩

theorem strContains_iff (hay needle : String) :
    strContains hay needle = true ↔ strSub needle hay := by
  unfold strContains strSub
  exact listSub_iff needle.data hay.data

theorem isExactMatch_eq (title ch ci ar : String) :
    isExactMatch title ch ci ar =
      (((ch == "") || strContains title ch) &&
       (((ci == "") || strContains title ci) &&
        dakimakuraKeywords.any (fun kw => strContains title kw))) := by
  unfold isExactMatch
  cases hch : (ch == "") <;> cases hcc : strContains title ch <;>
    cases hci : (ci == "") <;> cases hic : strContains title ci <;>
      cases hany : dakimakuraKeywords.any (fun kw => strContains title kw) <;>
        simp [hch, hcc, hci, hic, hany]

/-- C8: the matcher is a pure function of the record title and the
product's attributes; it accepts exactly when the character name is empty
or a literal substring of the title, the circle name is empty or a literal
substring, and at least one fixed category keyword occurs in the title;
the artist attribute has no influence on the result. -/
theorem c8_matcher_characterization (title ch ci ar : String) :
    (isExactMatch title ch ci ar = true ↔
      ((ch = "" ∨ strSub ch title) ∧ (ci = "" ∨ strSub ci title) ∧
        ∃ kw ∈ dakimakuraKeywords, strSub kw title)) ∧
    ∀ ar2, isExactMatch title ch ci ar = isExactMatch title ch ci ar2 := by
  constructor
  · rw [isExactMatch_eq]
    simp [Bool.and_eq_true, Bool.or_eq_true, beq_iff_eq, strContains_iff,
      List.any_eq_true]
  · intro ar2
    rfl

theorem scrapePlatform_task (platforms : List PlatformRec) (item : Item)
    (pa : String × AdapterFun) (now : Nat) (st : EngineState) :
    ((scrapePlatform platforms item pa.1 pa.2 now st).1.success
        = taskSucceedsB platforms item pa) ∧
    ((scrapePlatform platforms item pa.1 pa.2 now st).1.error.isSome
        = taskErrB platforms item pa) ∧
    ((scrapePlatform platforms item pa.1 pa.2 now st).1.new_listings
        = taskRecCount platforms item pa) := by
  unfold scrapePlatform taskSucceedsB taskErrB taskRecCount
  cases hf : platforms.find? (fun p => p.name == pa.1) with
  | none => simp
  | some p =>
    cases hen : p.enabled with
    | false => simp [hen]
    | true =>
      cases hres : pa.2 item with
      | error e => simp [hen, hres, adapterOk]
      | ok rs => simp [hen, hres, adapterOk]

theorem accumTask_fields (platforms : List PlatformRec) (item : Item)
    (pa : String × AdapterFun) (now : Nat) (st : EngineState) (s : RunStats) :
    ((accumTask s (scrapePlatform platforms item pa.1 pa.2 now st).1).items_checked
        = s.items_checked) ∧
    ((accumTask s (scrapePlatform platforms item pa.1 pa.2 now st).1).platforms_checked
        = s.platforms_checked
          + (if taskSucceedsB platforms item pa then 1 else 0)) ∧
    ((accumTask s (scrapePlatform platforms item pa.1 pa.2 now st).1).new_listings
        = s.new_listings + taskRecCount platforms item pa) ∧
    ((accumTask s (scrapePlatform platforms item pa.1 pa.2 now st).1).errors
        = s.errors + (if taskErrB platforms item pa then 1 else 0)) := by
  unfold scrapePlatform accumTask taskSucceedsB taskErrB taskRecCount
  cases hf : platforms.find? (fun p => p.name == pa.1) with
  | none => simp
  | some p =>
    cases hen : p.enabled with
    | false => simp [hen]
    | true =>
      cases hres : pa.2 item with
      | error e => simp [hen, hres, adapterOk]
      | ok rs => simp [hen, hres, adapterOk]

theorem itemFold_stats (platforms : List PlatformRec) (item : Item)
    (now : Nat) (adapters : List (String × AdapterFun)) :
    ∀ (s : RunStats) (st : EngineState),
    ((scrapeItemAllPlatforms platforms item adapters now (s, st)).1.items_checked
        = s.items_checked) ∧
    ((scrapeItemAllPlatforms platforms item adapters now (s, st)).1.platforms_checked
        = s.platforms_checked + (adapters.map
            (fun pa => if taskSucceedsB platforms item pa then 1 else 0)).sum) ∧
    ((scrapeItemAllPlatforms platforms item adapters now (s, st)).1.new_listings
        = s.new_listings + (adapters.map
            (fun pa => taskRecCount platforms item pa)).sum) ∧
    ((scrapeItemAllPlatforms platforms item adapters now (s, st)).1.errors
        = s.errors + (adapters.map
            (fun pa => if taskErrB platforms item pa then 1 else 0)).sum) := by
  induction adapters with
  | nil => intro s st; simp [scrapeItemAllPlatforms]
  | cons pa rest ih =>
    intro s st
    have hstep := accumTask_fields platforms item pa now st s
    have hrec := ih (accumTask s (scrapePlatform platforms item pa.1 pa.2 now st).1)
      (scrapePlatform platforms item pa.1 pa.2 now st).2
    have hshape : scrapeItemAllPlatforms platforms item (pa :: rest) now (s, st)
        = scrapeItemAllPlatforms platforms item rest now
            (accumTask s (scrapePlatform platforms item pa.1 pa.2 now st).1,
             (scrapePlatform platforms item pa.1 pa.2 now st).2) := rfl
    rw [hshape]
    refine ⟨?_, ?_, ?_, ?_⟩
    · rw [hrec.1, hstep.1]
    · rw [hrec.2.1, hstep.2.1]
      simp [List.map_cons, List.sum_cons]
      omega
    · rw [hrec.2.2.1, hstep.2.2.1]
      simp [List.map_cons, List.sum_cons]
      omega
    · rw [hrec.2.2.2, hstep.2.2.2]
      simp [List.map_cons, List.sum_cons]
      omega

theorem passFold_stats (platforms : List PlatformRec)
    (adapters : List (String × AdapterFun)) (now : Nat) (itemsL : List Item) :
    ∀ (s : RunStats) (st : EngineState),
    ((itemsL.foldl
        (fun acc item =>
          let out := scrapeItemAllPlatforms platforms item adapters now acc
          ({ out.1 with items_checked := out.1.items_checked + 1 }, out.2))
        (s, st)).1.items_checked = s.items_checked + itemsL.length) ∧
    ((itemsL.foldl
        (fun acc item =>
          let out := scrapeItemAllPlatforms platforms item adapters now acc
          ({ out.1 with items_checked := out.1.items_checked + 1 }, out.2))
        (s, st)).1.platforms_checked
      = s.platforms_checked + countSuccTasks platforms itemsL adapters) ∧
    ((itemsL.foldl
        (fun acc item =>
          let out := scrapeItemAllPlatforms platforms item adapters now acc
          ({ out.1 with items_checked := out.1.items_checked + 1 }, out.2))
        (s, st)).1.new_listings
      = s.new_listings + countRecsTasks platforms itemsL adapters) ∧
    ((itemsL.foldl
        (fun acc item =>
          let out := scrapeItemAllPlatforms platforms item adapters now acc
          ({ out.1 with items_checked := out.1.items_checked + 1 }, out.2))
        (s, st)).1.errors
      = s.errors + countErrTasks platforms itemsL adapters) := by
  induction itemsL with
  | nil =>
    intro s st
    simp [countSuccTasks, countRecsTasks, countErrTasks, gridSum]
  | cons i rest ih =>
    intro s st
    have hitem := itemFold_stats platforms i now adapters s st
    set mid := scrapeItemAllPlatforms platforms i adapters now (s, st) with hmid
    have hrec := ih { mid.1 with items_checked := mid.1.items_checked + 1 } mid.2
    have hshape :
        (List.foldl
          (fun acc item =>
            let out := scrapeItemAllPlatforms platforms item adapters now acc
            ({ out.1 with items_checked := out.1.items_checked + 1 }, out.2))
          (s, st) (i :: rest))
        = (List.foldl
          (fun acc item =>
            let out := scrapeItemAllPlatforms platforms item adapters now acc
            ({ out.1 with items_checked := out.1.items_checked + 1 }, out.2))
          ({ mid.1 with items_checked := mid.1.items_checked + 1 }, mid.2)
          rest) := rfl
    rw [hshape]
    refine ⟨?_, ?_, ?_, ?_⟩
    · rw [hrec.1]
      dsimp only
      simp only [hitem.1]
      simp [List.length_cons]
      omega
    · rw [hrec.2.1]
      dsimp only
      simp only [hitem.2.1]
      simp [countSuccTasks, gridSum]
      omega
    · rw [hrec.2.2.1]
      dsimp only
      simp only [hitem.2.2.1]
      simp [countRecsTasks, gridSum]
      omega
    · rw [hrec.2.2.2]
      dsimp only
      simp only [hitem.2.2.2]
      simp [countErrTasks, gridSum]
      omega

theorem scrapeAllSeq_stats (itemsL : List Item) (platforms : List PlatformRec)
    (adapters : List (String × AdapterFun)) (now : Nat) (st : EngineState) :
    ((scrapeAllSeq itemsL platforms adapters now st).1.items_checked
        = itemsL.length) ∧
    ((scrapeAllSeq itemsL platforms adapters now st).1.platforms_checked
        = countSuccTasks platforms itemsL adapters) ∧
    ((scrapeAllSeq itemsL platforms adapters now st).1.new_listings
        = countRecsTasks platforms itemsL adapters) ∧
    ((scrapeAllSeq itemsL platforms adapters now st).1.errors
        = countErrTasks platforms itemsL adapters) := by
  have h := passFold_stats platforms adapters now itemsL
    ({ items_checked := 0, platforms_checked := 0, new_listings := 0,
       changes := 0, errors := 0 } : RunStats) st
  exact ⟨by simpa using h.1, by simpa using h.2.1, by simpa using h.2.2.1,
    by simpa using h.2.2.2⟩

theorem updateRunCounters_some (ru : ScrapeRun) (changes : List String) :
    updateRunCounters (some ru) changes
      = some (if changes.isEmpty then ru
        else { ru with
          new_listings_found := ru.new_listings_found
            + (if changes.contains "new_item" then 1 else 0),
          changes_detected := ru.changes_detected + changes.length }) := by
  unfold updateRunCounters
  cases h : changes.isEmpty <;> simp [h]

theorem existingChanges_contains_new_item (r : ScrapedItem) (l0 : Listing) :
    (existingChanges r l0).contains "new_item" = false := by
  unfold existingChanges
  cases hfp : priceChangeFires r l0 <;>
    cases hfs : statusChangeFires r l0 <;>
      simp [List.contains, statusEventTypeOf_beq_new_item,
        new_item_ne_statusEventTypeOf]

theorem runShape_proc (iid pid : Nat) (r : ScrapedItem) (now : Nat)
    (st : EngineState) (ru : ScrapeRun) (hr : st.run = some ru) :
    ∃ ru' k,
      (processScrapedResult iid pid r now st).1.run = some ru' ∧
      (processScrapedResult iid pid r now st).1.db.listings.length
        = st.db.listings.length + k ∧
      ru'.new_listings_found = ru.new_listings_found + k ∧
      ru'.items_checked = ru.items_checked ∧
      ru'.platforms_checked = ru.platforms_checked ∧
      ru'.status = ru.status ∧ ru'.completed = ru.completed ∧
      ru'.error_count = ru.error_count := by
  cases h : findListing st.db iid pid r.url with
  | none =>
    rw [processScrapedResult_none iid pid r now st h, hr,
      updateRunCounters_some]
    refine ⟨_, 1, rfl, by simp, ?_, ?_, ?_, ?_, ?_, ?_⟩ <;>
      simp [List.contains]
  | some l0 =>
    rw [processScrapedResult_some iid pid r now st l0 h, hr,
      updateRunCounters_some]
    have hcont := existingChanges_contains_new_item r l0
    refine ⟨_, 0, rfl, by simp [updateFirst_length], ?_, ?_, ?_, ?_, ?_, ?_⟩ <;>
      cases hemp : (existingChanges r l0).isEmpty <;>
        simp_all [List.contains_eq_any_beq]

theorem runShape_foldResults (iid pid : Nat) (now : Nat)
    (rs : List ScrapedItem) :
    ∀ (st : EngineState) (ru : ScrapeRun) (c0 : Nat), st.run = some ru →
    ∃ ru' k,
      (rs.foldl (fun acc r =>
          let out := processScrapedResult iid pid r now acc.1
          (out.1, acc.2 + (if out.2.isSome then 1 else 0))) (st, c0)).1.run
        = some ru' ∧
      (rs.foldl (fun acc r =>
          let out := processScrapedResult iid pid r now acc.1
          (out.1, acc.2 + (if out.2.isSome then 1 else 0))) (st, c0)).1.db.listings.length
        = st.db.listings.length + k ∧
      ru'.new_listings_found = ru.new_listings_found + k ∧
      ru'.items_checked = ru.items_checked ∧
      ru'.platforms_checked = ru.platforms_checked ∧
      ru'.status = ru.status ∧ ru'.completed = ru.completed ∧
      ru'.error_count = ru.error_count := by
  induction rs with
  | nil =>
    intro st ru c0 hr
    exact ⟨ru, 0, hr, by simp, rfl, rfl, rfl, rfl, rfl, rfl⟩
  | cons r rs ih =>
    intro st ru c0 hr
    obtain ⟨ru1, k1, h1run, h1len, h1nf, h1ic, h1pc, h1st, h1cp, h1ec⟩ :=
      runShape_proc iid pid r now st ru hr
    rw [List.foldl_cons]
    obtain ⟨ru2, k2, h2run, h2len, h2nf, h2ic, h2pc, h2st, h2cp, h2ec⟩ :=
      ih (processScrapedResult iid pid r now st).1 ru1
        (c0 + (if (processScrapedResult iid pid r now st).2.isSome then 1 else 0))
        h1run
    refine ⟨ru2, k1 + k2, h2run, ?_, ?_, ?_, ?_, ?_, ?_, ?_⟩
    · rw [h2len, h1len]
      omega
    · rw [h2nf, h1nf]
      omega
    · rw [h2ic, h1ic]
    · rw [h2pc, h1pc]
    · rw [h2st, h1st]
    · rw [h2cp, h1cp]
    · rw [h2ec, h1ec]

theorem runShape_processResults (iid pid : Nat) (rs : List ScrapedItem)
    (now : Nat) (st : EngineState) (ru : ScrapeRun) (hr : st.run = some ru) :
    ∃ ru' k,
      (processResults iid pid rs now st).1.run = some ru' ∧
      (processResults iid pid rs now st).1.db.listings.length
        = st.db.listings.length + k ∧
      ru'.new_listings_found = ru.new_listings_found + k ∧
      ru'.items_checked = ru.items_checked ∧
      ru'.platforms_checked = ru.platforms_checked ∧
      ru'.status = ru.status ∧ ru'.completed = ru.completed ∧
      ru'.error_count = ru.error_count := by
  unfold processResults
  exact runShape_foldResults iid pid now rs st ru 0 hr

theorem runShape_scrapePlatform (platforms : List PlatformRec) (item : Item)
    (pa : String × AdapterFun) (now : Nat) (st : EngineState)
    (ru : ScrapeRun) (hr : st.run = some ru) :
    ∃ ru' k,
      (scrapePlatform platforms item pa.1 pa.2 now st).2.run = some ru' ∧
      (scrapePlatform platforms item pa.1 pa.2 now st).2.db.listings.length
        = st.db.listings.length + k ∧
      ru'.new_listings_found = ru.new_listings_found + k ∧
      ru'.items_checked = ru.items_checked ∧
      ru'.platforms_checked = ru.platforms_checked ∧
      ru'.status = ru.status ∧ ru'.completed = ru.completed ∧
      ru'.error_count = ru.error_count
        + (if taskErrB platforms item pa then 1 else 0) := by
  cases hf : platforms.find? (fun p => p.name == pa.1) with
  | none =>
    have herr : taskErrB platforms item pa = false := by
      unfold taskErrB
      rw [hf]
    have hsp : scrapePlatform platforms item pa.1 pa.2 now st
        = ({ new_listings := 0, changes := 0, error := none,
             success := false }, st) := by
      unfold scrapePlatform
      rw [hf]
    rw [hsp, herr]
    exact ⟨ru, 0, hr, by simp, by simp, rfl, rfl, rfl, rfl, by simp⟩
  | some p =>
    cases hen : p.enabled with
    | false =>
      have herr : taskErrB platforms item pa = false := by
        unfold taskErrB
        rw [hf]
        simp [hen]
      have hsp : scrapePlatform platforms item pa.1 pa.2 now st
          = ({ new_listings := 0, changes := 0, error := none,
               success := false }, st) := by
        unfold scrapePlatform
        rw [hf]
        simp [hen]
      rw [hsp, herr]
      exact ⟨ru, 0, hr, by simp, by simp, rfl, rfl, rfl, rfl, by simp⟩
    | true =>
      cases hres : pa.2 item with
      | error e =>
        have herr : taskErrB platforms item pa = true := by
          unfold taskErrB
          rw [hf]
          simp [hen, hres, adapterOk]
        have hsp : scrapePlatform platforms item pa.1 pa.2 now st
            = ({ new_listings := 0, changes := 0, error := some e,
                 success := false },
               { st with
                 run := st.run.map (fun x =>
                   { x with error_count := x.error_count + 1 }) }) := by
          unfold scrapePlatform
          rw [hf]
          simp [hen, hres]
        rw [hsp, herr]
        refine ⟨{ ru with error_count := ru.error_count + 1 }, 0, ?_, by simp,
          by simp, rfl, rfl, rfl, rfl, by simp⟩
        rw [hr]
        rfl
      | ok rs =>
        have herr : taskErrB platforms item pa = false := by
          unfold taskErrB
          rw [hf]
          simp [hen, hres, adapterOk]
        have hsp : scrapePlatform platforms item pa.1 pa.2 now st
            = ({ new_listings := rs.length,
                 changes := (processResults item.id p.id rs now st).2,
                 error := none, success := true },
               (processResults item.id p.id rs now st).1) := by
          unfold scrapePlatform
          rw [hf]
          simp [hen, hres]
        rw [hsp, herr]
        obtain ⟨ru', k, h1, h2, h3, h4, h5, h6, h7, h8⟩ :=
          runShape_processResults item.id p.id rs now st ru hr
        exact ⟨ru', k, h1, h2, h3, h4, h5, h6, h7, by rw [h8]; simp⟩

theorem runShape_itemFold (platforms : List PlatformRec) (item : Item)
    (now : Nat) (adapters : List (String × AdapterFun)) :
    ∀ (s : RunStats) (st : EngineState) (ru : ScrapeRun), st.run = some ru →
    ∃ ru' k,
      (scrapeItemAllPlatforms platforms item adapters now (s, st)).2.run
        = some ru' ∧
      (scrapeItemAllPlatforms platforms item adapters now
          (s, st)).2.db.listings.length = st.db.listings.length + k ∧
      ru'.new_listings_found = ru.new_listings_found + k ∧
      ru'.items_checked = ru.items_checked ∧
      ru'.platforms_checked = ru.platforms_checked ∧
      ru'.status = ru.status ∧ ru'.completed = ru.completed ∧
      ru'.error_count = ru.error_count + (adapters.map
        (fun pa => if taskErrB platforms item pa then 1 else 0)).sum := by
  induction adapters with
  | nil =>
    intro s st ru hr
    exact ⟨ru, 0, hr, by simp [scrapeItemAllPlatforms], rfl, rfl, rfl, rfl,
      rfl, by simp⟩
  | cons pa rest ih =>
    intro s st ru hr
    obtain ⟨ru1, k1, h1run, h1len, h1nf, h1ic, h1pc, h1st, h1cp, h1ec⟩ :=
      runShape_scrapePlatform platforms item pa now st ru hr
    have hshape : scrapeItemAllPlatforms platforms item (pa :: rest) now (s, st)
        = scrapeItemAllPlatforms platforms item rest now
            (accumTask s (scrapePlatform platforms item pa.1 pa.2 now st).1,
             (scrapePlatform platforms item pa.1 pa.2 now st).2) := rfl
    rw [hshape]
    obtain ⟨ru2, k2, h2run, h2len, h2nf, h2ic, h2pc, h2st, h2cp, h2ec⟩ :=
      ih (accumTask s (scrapePlatform platforms item pa.1 pa.2 now st).1)
        (scrapePlatform platforms item pa.1 pa.2 now st).2 ru1 h1run
    refine ⟨ru2, k1 + k2, h2run, ?_, ?_, ?_, ?_, ?_, ?_, ?_⟩
    · rw [h2len, h1len]
      omega
    · rw [h2nf, h1nf]
      omega
    · rw [h2ic, h1ic]
    · rw [h2pc, h1pc]
    · rw [h2st, h1st]
    · rw [h2cp, h1cp]
    · rw [h2ec, h1ec]
      simp [List.map_cons, List.sum_cons]
      omega

theorem runShape_passFold (platforms : List PlatformRec)
    (adapters : List (String × AdapterFun)) (now : Nat) (itemsL : List Item) :
    ∀ (s : RunStats) (st : EngineState) (ru : ScrapeRun), st.run = some ru →
    ∃ ru' k,
      (itemsL.foldl
        (fun acc item =>
          let out := scrapeItemAllPlatforms platforms item adapters now acc
          ({ out.1 with items_checked := out.1.items_checked + 1 }, out.2))
        (s, st)).2.run = some ru' ∧
      (itemsL.foldl
        (fun acc item =>
          let out := scrapeItemAllPlatforms platforms item adapters now acc
          ({ out.1 with items_checked := out.1.items_checked + 1 }, out.2))
        (s, st)).2.db.listings.length = st.db.listings.length + k ∧
      ru'.new_listings_found = ru.new_listings_found + k ∧
      ru'.items_checked = ru.items_checked ∧
      ru'.platforms_checked = ru.platforms_checked ∧
      ru'.status = ru.status ∧ ru'.completed = ru.completed ∧
      ru'.error_count = ru.error_count
        + countErrTasks platforms itemsL adapters := by
  induction itemsL with
  | nil =>
    intro s st ru hr
    exact ⟨ru, 0, hr, by simp, rfl, rfl, rfl, rfl, rfl,
      by simp [countErrTasks, gridSum]⟩
  | cons i rest ih =>
    intro s st ru hr
    obtain ⟨ru1, k1, h1run, h1len, h1nf, h1ic, h1pc, h1st, h1cp, h1ec⟩ :=
      runShape_itemFold platforms i now adapters s st ru hr
    rw [List.foldl_cons]
    obtain ⟨ru2, k2, h2run, h2len, h2nf, h2ic, h2pc, h2st, h2cp, h2ec⟩ :=
      ih { (scrapeItemAllPlatforms platforms i adapters now (s, st)).1 with
            items_checked := (scrapeItemAllPlatforms platforms i adapters now
              (s, st)).1.items_checked + 1 }
        (scrapeItemAllPlatforms platforms i adapters now (s, st)).2 ru1 h1run
    refine ⟨ru2, k1 + k2, h2run, ?_, ?_, ?_, ?_, ?_, ?_, ?_⟩
    · rw [h2len, h1len]
      omega
    · rw [h2nf, h1nf]
      omega
    · rw [h2ic, h1ic]
    · rw [h2pc, h1pc]
    · rw [h2st, h1st]
    · rw [h2cp, h1cp]
    · rw [h2ec, h1ec]
      simp [countErrTasks, gridSum]
      omega

theorem runShape_scrapeAllSeq (itemsL : List Item)
    (platforms : List PlatformRec) (adapters : List (String × AdapterFun))
    (now : Nat) (st : EngineState) (ru : ScrapeRun) (hr : st.run = some ru) :
    ∃ ru',
      (scrapeAllSeq itemsL platforms adapters now st).2.run = some ru' ∧
      ru'.items_checked
        = (scrapeAllSeq itemsL platforms adapters now st).1.items_checked ∧
      ru'.platforms_checked
        = (scrapeAllSeq itemsL platforms adapters now st).1.platforms_checked ∧
      ru'.new_listings_found + st.db.listings.length
        = ru.new_listings_found + (scrapeAllSeq itemsL platforms adapters now
            st).2.db.listings.length ∧
      ru'.status = ru.status ∧ ru'.completed = ru.completed ∧
      ru'.error_count = ru.error_count
        + countErrTasks platforms itemsL adapters := by
  obtain ⟨ru1, k, h1run, h1len, h1nf, h1ic, h1pc, h1st, h1cp, h1ec⟩ :=
    runShape_passFold platforms adapters now itemsL
      ({ items_checked := 0, platforms_checked := 0, new_listings := 0,
         changes := 0, errors := 0 } : RunStats) st ru hr
  refine ⟨{ ru1 with
      items_checked := (scrapeAllSeq itemsL platforms adapters now
        st).1.items_checked,
      platforms_checked := (scrapeAllSeq itemsL platforms adapters now
        st).1.platforms_checked }, ?_, rfl, rfl, ?_, h1st, h1cp, h1ec⟩
  · show ({ (itemsL.foldl
        (fun acc item =>
          let out := scrapeItemAllPlatforms platforms item adapters now acc
          ({ out.1 with items_checked := out.1.items_checked + 1 }, out.2))
        (({ items_checked := 0, platforms_checked := 0, new_listings := 0,
            changes := 0, errors := 0 } : RunStats), st)).2 with
      run := _ } : EngineState).run = _
    rw [h1run]
    rfl
  · show ru1.new_listings_found + st.db.listings.length = _
    rw [h1nf]
    have hdb : (scrapeAllSeq itemsL platforms adapters now
          st).2.db.listings.length
        = (itemsL.foldl
            (fun acc item =>
              let out := scrapeItemAllPlatforms platforms item adapters now acc
              ({ out.1 with items_checked := out.1.items_checked + 1 }, out.2))
            (({ items_checked := 0, platforms_checked := 0, new_listings := 0,
                changes := 0, errors := 0 } : RunStats),
             st)).2.db.listings.length := rfl
    rw [hdb, h1len]
    omega

/-- C6 counterexample: a pass over a store that already holds the listing
for the single returned record reports RunStats new_listings = 1 although
zero new listings were created, and the Run row's new_listings_found stays
0 — the two counters differ, and the claimed mirroring does not happen. -/
theorem c6_new_listings_counter_counterexample :
    ((scrapeAllSeq [{ id := 1, character := "", circle := "", artist := "" }]
        [{ id := 2, name := "mercari", enabled := true }]
        [("mercari", fun _ => Except.ok [sampleRecord ("available") (some 100)])]
        7 (stWith [sampleListing ("available") (some 100)])).1.new_listings
      = 1) ∧
    ((scrapeAllSeq [{ id := 1, character := "", circle := "", artist := "" }]
        [{ id := 2, name := "mercari", enabled := true }]
        [("mercari", fun _ => Except.ok [sampleRecord ("available") (some 100)])]
        7 (stWith [sampleListing ("available") (some 100)])).2.db.listings.length
      = (stWith [sampleListing ("available") (some 100)]).db.listings.length) ∧
    ((scrapeAllSeq [{ id := 1, character := "", circle := "", artist := "" }]
        [{ id := 2, name := "mercari", enabled := true }]
        [("mercari", fun _ => Except.ok [sampleRecord ("available") (some 100)])]
        7 (stWith [sampleListing ("available") (some 100)])).2.run.map
          (fun x => x.new_listings_found) = some 0) ∧
    (1 : Nat) ≠ 0 := by
  exact ⟨by decide, by decide, by decide, by decide⟩

/-- C6 (amended): RunStats counts per pass as follows — items_checked is the
number of products, platforms_checked the number of platform tasks that
completed without raising, errors the number that raised, and new_listings
the total number of records returned by successful tasks (not the number of
listings created); at the end of the pass only items_checked and
platforms_checked are mirrored into the Run row, whose status is untouched,
while Run.new_listings_found is maintained incrementally by the reconciler
and grows by exactly the number of listings created during the pass. -/
theorem c6_run_stats_amended (itemsL : List Item)
    (platforms : List PlatformRec) (adapters : List (String × AdapterFun))
    (now : Nat) (st : EngineState) (ru : ScrapeRun)
    (hr : st.run = some ru) :
    ((scrapeAllSeq itemsL platforms adapters now st).1.items_checked
        = itemsL.length) ∧
    ((scrapeAllSeq itemsL platforms adapters now st).1.platforms_checked
        = countSuccTasks platforms itemsL adapters) ∧
    ((scrapeAllSeq itemsL platforms adapters now st).1.errors
        = countErrTasks platforms itemsL adapters) ∧
    ((scrapeAllSeq itemsL platforms adapters now st).1.new_listings
        = countRecsTasks platforms itemsL adapters) ∧
    ∃ ru', (scrapeAllSeq itemsL platforms adapters now st).2.run = some ru' ∧
      ru'.items_checked
        = (scrapeAllSeq itemsL platforms adapters now st).1.items_checked ∧
      ru'.platforms_checked
        = (scrapeAllSeq itemsL platforms adapters now st).1.platforms_checked ∧
      ru'.status = ru.status ∧
      ru'.new_listings_found + st.db.listings.length
        = ru.new_listings_found + (scrapeAllSeq itemsL platforms adapters now
            st).2.db.listings.length := by
  obtain ⟨hs1, hs2, hs3, hs4⟩ :=
    scrapeAllSeq_stats itemsL platforms adapters now st
  obtain ⟨ru', h1, h2, h3, h4, h5, _h6, _h7⟩ :=
    runShape_scrapeAllSeq itemsL platforms adapters now st ru hr
  exact ⟨hs1, hs2, hs4, hs3, ru', h1, h2, h3, h5, h4⟩

/-- C6 witness: the amended theorem at the fresh-store Scenario-A input (one
product, one platform, one matching record). -/
theorem c6_run_stats_amended_witness :
    ((scrapeAllSeq [{ id := 1, character := "", circle := "", artist := "" }]
        [{ id := 2, name := "mercari", enabled := true }]
        [("mercari", fun _ => Except.ok [sampleRecord ("available") (some 1000)])]
        7 (stWith [])).1.items_checked
      = ([{ id := 1, character := "", circle := "", artist := "" }] :
          List Item).length) ∧
    ((scrapeAllSeq [{ id := 1, character := "", circle := "", artist := "" }]
        [{ id := 2, name := "mercari", enabled := true }]
        [("mercari", fun _ => Except.ok [sampleRecord ("available") (some 1000)])]
        7 (stWith [])).1.platforms_checked
      = countSuccTasks [{ id := 2, name := "mercari", enabled := true }]
          [{ id := 1, character := "", circle := "", artist := "" }]
          [("mercari", fun _ => Except.ok [sampleRecord ("available") (some 1000)])]) ∧
    ((scrapeAllSeq [{ id := 1, character := "", circle := "", artist := "" }]
        [{ id := 2, name := "mercari", enabled := true }]
        [("mercari", fun _ => Except.ok [sampleRecord ("available") (some 1000)])]
        7 (stWith [])).1.errors
      = countErrTasks [{ id := 2, name := "mercari", enabled := true }]
          [{ id := 1, character := "", circle := "", artist := "" }]
          [("mercari", fun _ => Except.ok [sampleRecord ("available") (some 1000)])]) ∧
    ((scrapeAllSeq [{ id := 1, character := "", circle := "", artist := "" }]
        [{ id := 2, name := "mercari", enabled := true }]
        [("mercari", fun _ => Except.ok [sampleRecord ("available") (some 1000)])]
        7 (stWith [])).1.new_listings
      = countRecsTasks [{ id := 2, name := "mercari", enabled := true }]
          [{ id := 1, character := "", circle := "", artist := "" }]
          [("mercari", fun _ => Except.ok [sampleRecord ("available") (some 1000)])]) ∧
    ∃ ru', (scrapeAllSeq [{ id := 1, character := "", circle := "", artist := "" }]
        [{ id := 2, name := "mercari", enabled := true }]
        [("mercari", fun _ => Except.ok [sampleRecord ("available") (some 1000)])]
        7 (stWith [])).2.run = some ru' ∧
      ru'.items_checked
        = (scrapeAllSeq [{ id := 1, character := "", circle := "", artist := "" }]
            [{ id := 2, name := "mercari", enabled := true }]
            [("mercari", fun _ => Except.ok [sampleRecord ("available") (some 1000)])]
            7 (stWith [])).1.items_checked ∧
      ru'.platforms_checked
        = (scrapeAllSeq [{ id := 1, character := "", circle := "", artist := "" }]
            [{ id := 2, name := "mercari", enabled := true }]
            [("mercari", fun _ => Except.ok [sampleRecord ("available") (some 1000)])]
            7 (stWith [])).1.platforms_checked ∧
      ru'.status = ruRunning.status ∧
      ru'.new_listings_found + (stWith []).db.listings.length
        = ruRunning.new_listings_found +
            (scrapeAllSeq [{ id := 1, character := "", circle := "", artist := "" }]
              [{ id := 2, name := "mercari", enabled := true }]
              [("mercari", fun _ => Except.ok [sampleRecord ("available") (some 1000)])]
              7 (stWith [])).2.db.listings.length :=
  c6_run_stats_amended [{ id := 1, character := "", circle := "", artist := "" }]
    [{ id := 2, name := "mercari", enabled := true }]
    [("mercari", fun _ => Except.ok [sampleRecord ("available") (some 1000)])]
    7 (stWith []) ruRunning rfl

/-- C7: when a platform task of a pass raises, the exception is caught: the
pass output counts it (RunStats errors equals the number of raising tasks,
hence is at least 1, and Run.error_count grows by the same number, becoming
at least 1), every task of every product is still dispatched exactly once
(platforms_checked equals the number of non-raising tasks of the whole
grid), and the run still completes with status completed. -/
theorem c7_error_isolation (itemsL : List Item) (platforms : List PlatformRec)
    (adapters : List (String × AdapterFun)) (now : Nat) (st : EngineState)
    (ru : ScrapeRun) (item0 : Item) (pa0 : String × AdapterFun)
    (p0 : PlatformRec) (e : String)
    (hr : st.run = some ru)
    (hi : item0 ∈ itemsL) (ha : pa0 ∈ adapters)
    (hp : platforms.find? (fun p => p.name == pa0.1) = some p0)
    (hen : p0.enabled = true)
    (he : pa0.2 item0 = Except.error e) :
    ((runScraperPass itemsL platforms adapters now st).1.errors
        = countErrTasks platforms itemsL adapters) ∧
    1 ≤ countErrTasks platforms itemsL adapters ∧
    ((runScraperPass itemsL platforms adapters now st).1.platforms_checked
        = countSuccTasks platforms itemsL adapters) ∧
    ∃ ru', (runScraperPass itemsL platforms adapters now st).2.run
        = some ru' ∧
      ru'.status = "completed" ∧
      ru'.error_count = ru.error_count
        + countErrTasks platforms itemsL adapters ∧
      1 ≤ ru'.error_count := by
  have herrB : taskErrB platforms item0 pa0 = true := by
    unfold taskErrB
    rw [hp]
    simp [hen, he, adapterOk]
  have hpos : 1 ≤ countErrTasks platforms itemsL adapters := by
    unfold countErrTasks gridSum
    have hmem1 : (if taskErrB platforms item0 pa0 then (1 : Nat) else 0)
        ∈ adapters.map (fun pa => if taskErrB platforms item0 pa then 1 else 0) :=
      List.mem_map_of_mem _ ha
    have hinner : 1 ≤ (adapters.map
        (fun pa => if taskErrB platforms item0 pa then 1 else 0)).sum := by
      refine le_trans ?_ (List.single_le_sum (fun x _ => Nat.zero_le x) _ hmem1)
      rw [herrB]
      simp
    have hmem2 : (adapters.map
        (fun pa => if taskErrB platforms item0 pa then 1 else 0)).sum
        ∈ itemsL.map (fun item => (adapters.map
            (fun pa => if taskErrB platforms item pa then 1 else 0)).sum) :=
      List.mem_map_of_mem _ hi
    exact le_trans hinner
      (List.single_le_sum (fun x _ => Nat.zero_le x) _ hmem2)
  obtain ⟨hs1, hs2, hs3, hs4⟩ :=
    scrapeAllSeq_stats itemsL platforms adapters now st
  obtain ⟨ru1, h1, _h2, _h3, _h4, _h5, _h6, h7⟩ :=
    runShape_scrapeAllSeq itemsL platforms adapters now st ru hr
  refine ⟨hs4, hpos, hs2, ?_⟩
  have hcomp : (completeScrapeRun ("completed") none
      (scrapeAllSeq itemsL platforms adapters now st).2).run
      = some { ru1 with
          status := "completed", completed := true,
          errors := if strTruthy none then none else ru1.errors } := by
    unfold completeScrapeRun
    rw [h1]
    rfl
  refine ⟨_, hcomp, rfl, ?_, ?_⟩
  · show ru1.error_count = _
    rw [h7]
  · show 1 ≤ ru1.error_count
    rw [h7]
    omega

/-- C7 witness: a one-product one-platform pass whose only adapter raises,
via the isolation theorem. -/
theorem c7_error_isolation_witness :
    ((runScraperPass [{ id := 1, character := "", circle := "", artist := "" }]
        [{ id := 2, name := "mercari", enabled := true }]
        [("mercari", fun _ => (Except.error ("boom") : Except String (List ScrapedItem)))]
        7 (stWith [])).1.errors
      = countErrTasks [{ id := 2, name := "mercari", enabled := true }]
          [{ id := 1, character := "", circle := "", artist := "" }]
          [("mercari", fun _ => (Except.error ("boom") : Except String (List ScrapedItem)))]) ∧
    1 ≤ countErrTasks [{ id := 2, name := "mercari", enabled := true }]
        [{ id := 1, character := "", circle := "", artist := "" }]
        [("mercari", fun _ => (Except.error ("boom") : Except String (List ScrapedItem)))] ∧
    ((runScraperPass [{ id := 1, character := "", circle := "", artist := "" }]
        [{ id := 2, name := "mercari", enabled := true }]
        [("mercari", fun _ => (Except.error ("boom") : Except String (List ScrapedItem)))]
        7 (stWith [])).1.platforms_checked
      = countSuccTasks [{ id := 2, name := "mercari", enabled := true }]
          [{ id := 1, character := "", circle := "", artist := "" }]
          [("mercari", fun _ => (Except.error ("boom") : Except String (List ScrapedItem)))]) ∧
    ∃ ru', (runScraperPass [{ id := 1, character := "", circle := "", artist := "" }]
        [{ id := 2, name := "mercari", enabled := true }]
        [("mercari", fun _ => (Except.error ("boom") : Except String (List ScrapedItem)))]
        7 (stWith [])).2.run = some ru' ∧
      ru'.status = "completed" ∧
      ru'.error_count = ruRunning.error_count
        + countErrTasks [{ id := 2, name := "mercari", enabled := true }]
            [{ id := 1, character := "", circle := "", artist := "" }]
            [("mercari", fun _ => (Except.error ("boom") : Except String (List ScrapedItem)))] ∧
      1 ≤ ru'.error_count :=
  c7_error_isolation [{ id := 1, character := "", circle := "", artist := "" }]
    [{ id := 2, name := "mercari", enabled := true }]
    [("mercari", fun _ => (Except.error ("boom") : Except String (List ScrapedItem)))]
    7 (stWith []) ruRunning
    ({ id := 1, character := "", circle := "", artist := "" } : Item)
    ("mercari", fun _ => (Except.error ("boom") : Except String (List ScrapedItem)))
    ({ id := 2, name := "mercari", enabled := true } : PlatformRec) ("boom")
    rfl (List.mem_singleton.mpr rfl) (List.mem_singleton.mpr rfl)
    (by decide) rfl rfl

theorem stateEquiv_refl (s : EngineState) : stateEquiv s s :=
  ⟨List.Perm.refl _, List.Perm.refl _, List.Perm.refl _, rfl⟩

theorem stateEquiv_trans {a b c : EngineState} (h1 : stateEquiv a b)
    (h2 : stateEquiv b c) : stateEquiv a c :=
  ⟨h1.1.trans h2.1, h1.2.1.trans h2.2.1, h1.2.2.1.trans h2.2.2.1,
   h1.2.2.2.trans h2.2.2.2⟩

theorem find?_eq_head?_filter (p : α → Bool) (l : List α) :
    l.find? p = (l.filter p).head? := by
  induction l with
  | nil => rfl
  | cons x xs ih =>
    cases hx : p x with
    | true =>
      rw [List.find?_cons_of_pos _ hx, List.filter_cons_of_pos (by simp [hx])]
      rfl
    | false =>
      rw [List.find?_cons_of_neg _ (by simp [hx]),
        List.filter_cons_of_neg (by simp [hx]), ih]

theorem perm_eq_of_length_le_one {l1 l2 : List α} (h : l1.Perm l2)
    (hl : l1.length ≤ 1) : l1 = l2 := by
  cases l1 with
  | nil => exact (List.Perm.nil_eq h).symm ▸ rfl
  | cons x xs =>
    cases xs with
    | nil => exact (List.perm_singleton.mp h.symm).symm
    | cons y ys => simp at hl

theorem filter_key_len (iid pid : Nat) (url : String) (l : List Listing)
    (h : (l.map listingKey).Pairwise (fun a b => a ≠ b)) :
    (l.filter (keyMatch iid pid url)).length ≤ 1 := by
  induction l with
  | nil => simp
  | cons x xs ih =>
    rw [List.map_cons, List.pairwise_cons] at h
    cases hx : keyMatch iid pid url x with
    | false =>
      rw [List.filter_cons_of_neg (by simp [hx])]
      exact ih h.2
    | true =>
      rw [List.filter_cons_of_pos (by simp [hx])]
      have hnil : xs.filter (keyMatch iid pid url) = [] := by
        rw [List.filter_eq_nil_iff]
        intro a ha
        intro hcon
        have h1 := (keyMatch_iff iid pid url a).mp (by simpa using hcon)
        have h2 := (keyMatch_iff iid pid url x).mp hx
        exact h.1 (listingKey a) (List.mem_map_of_mem _ ha) (h2.trans h1.symm)
      simp [hnil]

theorem find?_key_perm (iid pid : Nat) (url : String)
    {l1 l2 : List Listing} (hperm : l1.Perm l2)
    (h : (l1.map listingKey).Pairwise (fun a b => a ≠ b)) :
    l1.find? (keyMatch iid pid url) = l2.find? (keyMatch iid pid url) := by
  rw [find?_eq_head?_filter, find?_eq_head?_filter]
  have hfil : (l1.filter (keyMatch iid pid url)).Perm
      (l2.filter (keyMatch iid pid url)) := hperm.filter _
  rw [perm_eq_of_length_le_one hfil (filter_key_len iid pid url l1 h)]

theorem map_if_id (p : α → Bool) (f : α → α) (l : List α)
    (h : ∀ a ∈ l, p a = false) :
    l.map (fun a => if p a then f a else a) = l := by
  induction l with
  | nil => rfl
  | cons x xs ih =>
    have hx := h x (List.mem_cons_self x xs)
    have hxs := ih (fun a ha => h a (List.mem_cons_of_mem x ha))
    simp [hx, hxs]

theorem updateFirst_eq_map (p : α → Bool) (f : α → α) (l : List α)
    (h : (l.filter p).length ≤ 1) :
    updateFirst p f l = l.map (fun a => if p a then f a else a) := by
  induction l with
  | nil => rfl
  | cons x xs ih =>
    cases hx : p x with
    | true =>
      rw [List.filter_cons_of_pos (by simp [hx])] at h
      have hnil : xs.filter p = [] := by
        cases hfil : xs.filter p with
        | nil => rfl
        | cons y ys =>
          rw [hfil] at h
          simp at h
      have hxs : ∀ a ∈ xs, p a = false := by
        intro a ha
        by_contra hcon
        have hmem : a ∈ xs.filter p :=
          List.mem_filter.mpr ⟨ha, by revert hcon; cases p a <;> simp⟩
        rw [hnil] at hmem
        simp at hmem
      simp [updateFirst, hx, map_if_id p f xs hxs]
    | false =>
      rw [List.filter_cons_of_neg (by simp [hx])] at h
      simp [updateFirst, hx, ih h]

theorem find?_append_nomatch (p : α → Bool) (l : List α) (x : α)
    (hx : p x = false) :
    (l ++ [x]).find? p = l.find? p := by
  rw [find?_append_here]
  cases hl : l.find? p with
  | some a => rfl
  | none =>
    simp only [Option.orElse]
    rw [List.find?_cons_of_neg _ (by simp [hx])]
    rfl

theorem updateFirst_append_nomatch (p : α → Bool) (f : α → α) (l : List α)
    (x : α) (hx : p x = false) :
    updateFirst p f (l ++ [x]) = updateFirst p f l ++ [x] := by
  induction l with
  | nil => simp [updateFirst, hx]
  | cons y ys ih =>
    cases hy : p y with
    | true => simp [updateFirst, hy]
    | false => simp [updateFirst, hy, ih]

theorem find?_updateFirst_of_ne (p q : α → Bool) (f : α → α) (l : List α)
    (hq : ∀ a, q a = true → p a = false)
    (hqf : ∀ a, q a = true → p (f a) = false) :
    (updateFirst q f l).find? p = l.find? p := by
  induction l with
  | nil => rfl
  | cons x xs ih =>
    cases hx : q x with
    | true =>
      have hred : updateFirst q f (x :: xs) = f x :: xs := by
        simp [updateFirst, hx]
      rw [hred, List.find?_cons_of_neg _ (by simp [hqf x hx]),
        List.find?_cons_of_neg _ (by simp [hq x hx])]
    | false =>
      have hred : updateFirst q f (x :: xs) = x :: updateFirst q f xs := by
        simp [updateFirst, hx]
      rw [hred]
      cases hpx : p x with
      | true =>
        rw [List.find?_cons_of_pos _ hpx, List.find?_cons_of_pos _ hpx]
      | false =>
        rw [List.find?_cons_of_neg _ (by simp [hpx]),
          List.find?_cons_of_neg _ (by simp [hpx]), ih]

theorem updateFirst_comm (p q : α → Bool) (f g : α → α) (l : List α)
    (hq_of_p : ∀ a, p a = true → q a = false)
    (hqf : ∀ a, q (f a) = false)
    (hpg : ∀ a, p (g a) = false) :
    updateFirst p f (updateFirst q g l)
      = updateFirst q g (updateFirst p f l) := by
  induction l with
  | nil => rfl
  | cons x xs ih =>
    cases hpx : p x with
    | true =>
      have hqx : q x = false := hq_of_p x hpx
      have h1 : updateFirst q g (x :: xs) = x :: updateFirst q g xs := by
        simp [updateFirst, hqx]
      have h2 : updateFirst p f (x :: xs) = f x :: xs := by
        simp [updateFirst, hpx]
      have h3 : updateFirst p f (x :: updateFirst q g xs)
          = f x :: updateFirst q g xs := by
        simp [updateFirst, hpx]
      have h4 : updateFirst q g (f x :: xs) = f x :: updateFirst q g xs := by
        simp [updateFirst, hqf x]
      rw [h1, h2, h3, h4]
    | false =>
      cases hqx : q x with
      | true =>
        have h1 : updateFirst q g (x :: xs) = g x :: xs := by
          simp [updateFirst, hqx]
        have h2 : updateFirst p f (x :: xs) = x :: updateFirst p f xs := by
          simp [updateFirst, hpx]
        have h3 : updateFirst p f (g x :: xs) = g x :: updateFirst p f xs := by
          simp [updateFirst, hpg x]
        have h4 : updateFirst q g (x :: updateFirst p f xs)
            = g x :: updateFirst p f xs := by
          simp [updateFirst, hqx]
        rw [h1, h2, h3, h4]
      | false =>
        have h1 : updateFirst q g (x :: xs) = x :: updateFirst q g xs := by
          simp [updateFirst, hqx]
        have h2 : updateFirst p f (x :: xs) = x :: updateFirst p f xs := by
          simp [updateFirst, hpx]
        have h3 : updateFirst p f (x :: updateFirst q g xs)
            = x :: updateFirst p f (updateFirst q g xs) := by
          simp [updateFirst, hpx]
        have h4 : updateFirst q g (x :: updateFirst p f xs)
            = x :: updateFirst q g (updateFirst p f xs) := by
          simp [updateFirst, hqx]
        rw [h1, h2, h3, h4, ih]

theorem keyMatch_false_of_key_ne (iid pid : Nat) (url : String) (a : Listing)
    (h : listingKey a ≠ (iid, pid, url)) :
    keyMatch iid pid url a = false := by
  cases hx : keyMatch iid pid url a with
  | false => rfl
  | true => exact absurd ((keyMatch_iff iid pid url a).mp hx) h

theorem callKey_spread (c : ReconCall) :
    callKey c = (c.iid, c.pid, c.record.url) := rfl

theorem keyMatch_of_call {c : ReconCall} {a : Listing}
    (h : keyMatch c.iid c.pid c.record.url a = true) :
    listingKey a = callKey c :=
  (keyMatch_iff c.iid c.pid c.record.url a).mp h

theorem disjoint_keyMatch (c1 c2 : ReconCall) (hk : callKey c1 ≠ callKey c2) :
    ∀ a, keyMatch c1.iid c1.pid c1.record.url a = true →
      keyMatch c2.iid c2.pid c2.record.url a = false := by
  intro a h1
  apply keyMatch_false_of_key_ne
  rw [keyMatch_of_call h1]
  exact fun hcon => hk (hcon.trans (callKey_spread c2).symm)

theorem applyCall_none_parts (c : ReconCall) (st : EngineState)
    (h : findListing st.db c.iid c.pid c.record.url = none) :
    (applyCall st c).db.listings
      = st.db.listings ++ [newListingOf c.iid c.pid c.record c.now] ∧
    (applyCall st c).db.events
      = st.db.events ++ [newItemEvent c.iid c.pid c.record] ∧
    (applyCall st c).db.history
      = st.db.history ++
          (if priceTruthy c.record.price then
            [{ item_id := c.iid, platform_id := c.pid, url := c.record.url,
               price := priceVal c.record.price, recorded_at := c.now }]
           else []) ∧
    (applyCall st c).run = updateRunCounters st.run (["new_item"]) := by
  unfold applyCall
  rw [processScrapedResult_none c.iid c.pid c.record c.now st h]
  exact ⟨rfl, rfl, rfl, rfl⟩

theorem applyCall_some_parts (c : ReconCall) (st : EngineState) (l0 : Listing)
    (h : findListing st.db c.iid c.pid c.record.url = some l0) :
    (applyCall st c).db.listings
      = updateFirst (keyMatch c.iid c.pid c.record.url)
          (fun _ => updateExisting c.record c.now l0) st.db.listings ∧
    (applyCall st c).db.events
      = st.db.events ++ existingEvents c.iid c.pid c.record l0 ∧
    (applyCall st c).db.history
      = st.db.history ++
          (if priceChangeFires c.record l0 then
            [{ item_id := c.iid, platform_id := c.pid, url := c.record.url,
               price := priceVal c.record.price, recorded_at := c.now }]
           else []) ∧
    (applyCall st c).run
      = updateRunCounters st.run (existingChanges c.record l0) := by
  unfold applyCall
  rw [processScrapedResult_some c.iid c.pid c.record c.now st l0 h]
  exact ⟨rfl, rfl, rfl, rfl⟩

theorem findListing_after_other (c1 c2 : ReconCall) (st : EngineState)
    (hk : callKey c2 ≠ callKey c1) :
    findListing (applyCall st c2).db c1.iid c1.pid c1.record.url
      = findListing st.db c1.iid c1.pid c1.record.url := by
  cases h2 : findListing st.db c2.iid c2.pid c2.record.url with
  | none =>
    obtain ⟨hl, _, _, _⟩ := applyCall_none_parts c2 st h2
    show ((applyCall st c2).db.listings).find? _ = _
    rw [hl]
    apply find?_append_nomatch
    apply keyMatch_false_of_key_ne
    rw [listingKey_newListingOf]
    exact fun hcon => hk ((callKey_spread c2).trans hcon)
  | some l0 =>
    obtain ⟨hl, _, _, _⟩ := applyCall_some_parts c2 st l0 h2
    show ((applyCall st c2).db.listings).find? _ = _
    rw [hl]
    apply find?_updateFirst_of_ne
    · exact disjoint_keyMatch c2 c1 hk
    · intro a _
      apply keyMatch_false_of_key_ne
      rw [listingKey_updateExisting, keyMatch_of_call (List.find?_some h2)]
      exact fun hcon => hk (hcon.trans (callKey_spread c1).symm)

theorem updateRunCounters_comm (run : Option ScrapeRun) (a b : List String) :
    updateRunCounters (updateRunCounters run a) b
      = updateRunCounters (updateRunCounters run b) a := by
  cases run with
  | none => rfl
  | some ru =>
    cases ha : a.isEmpty <;> cases hb : b.isEmpty <;>
      simp_all [updateRunCounters_some, ScrapeRun.mk.injEq] <;> omega

theorem append_two_swap (E x y : List α) :
    ((E ++ x) ++ y).Perm ((E ++ y) ++ x) := by
  rw [List.append_assoc, List.append_assoc]
  exact List.Perm.append_left E (List.perm_append_comm)

theorem keyMatch_newListing_ne (cA cB : ReconCall)
    (h : callKey cA ≠ callKey cB) :
    keyMatch cB.iid cB.pid cB.record.url
      (newListingOf cA.iid cA.pid cA.record cA.now) = false := by
  apply keyMatch_false_of_key_ne
  rw [listingKey_newListingOf]
  intro hcon
  apply h
  rw [callKey_spread cA, callKey_spread cB]
  exact hcon

theorem keyMatch_updExisting_ne (cA cB : ReconCall) (l0 : Listing)
    (hl : listingKey l0 = callKey cA) (h : callKey cA ≠ callKey cB) :
    keyMatch cB.iid cB.pid cB.record.url
      (updateExisting cA.record cA.now l0) = false := by
  apply keyMatch_false_of_key_ne
  rw [listingKey_updateExisting, hl]
  intro hcon
  apply h
  rw [callKey_spread cB]
  exact hcon

theorem applyCall_comm (c1 c2 : ReconCall) (st : EngineState)
    (hk : callKey c1 ≠ callKey c2) :
    stateEquiv (applyCall (applyCall st c1) c2)
      (applyCall (applyCall st c2) c1) := by
  have hk' : callKey c2 ≠ callKey c1 := fun h => hk h.symm
  have hf1 : findListing (applyCall st c2).db c1.iid c1.pid c1.record.url
      = findListing st.db c1.iid c1.pid c1.record.url :=
    findListing_after_other c1 c2 st hk'
  have hf2 : findListing (applyCall st c1).db c2.iid c2.pid c2.record.url
      = findListing st.db c2.iid c2.pid c2.record.url :=
    findListing_after_other c2 c1 st hk
  cases h1 : findListing st.db c1.iid c1.pid c1.record.url with
  | none =>
    cases h2 : findListing st.db c2.iid c2.pid c2.record.url with
    | none =>
      obtain ⟨l1a, e1a, h1a, r1a⟩ := applyCall_none_parts c1 st h1
      obtain ⟨l2a, e2a, h2a, r2a⟩ := applyCall_none_parts c2 st h2
      obtain ⟨l12, e12, h12, r12⟩ :=
        applyCall_none_parts c2 (applyCall st c1) (hf2.trans h2)
      obtain ⟨l21, e21, h21, r21⟩ :=
        applyCall_none_parts c1 (applyCall st c2) (hf1.trans h1)
      refine ⟨?_, ?_, ?_, ?_⟩
      · rw [l12, l1a, l21, l2a]
        exact append_two_swap _ _ _
      · rw [e12, e1a, e21, e2a]
        exact append_two_swap _ _ _
      · rw [h12, h1a, h21, h2a]
        exact append_two_swap _ _ _
      · rw [r12, r1a, r21, r2a]
    | some l2 =>
      have hm : keyMatch c2.iid c2.pid c2.record.url
          (newListingOf c1.iid c1.pid c1.record c1.now) = false :=
        keyMatch_newListing_ne c1 c2 hk
      obtain ⟨l1a, e1a, h1a, r1a⟩ := applyCall_none_parts c1 st h1
      obtain ⟨l2a, e2a, h2a, r2a⟩ := applyCall_some_parts c2 st l2 h2
      obtain ⟨l12, e12, h12, r12⟩ :=
        applyCall_some_parts c2 (applyCall st c1) l2 (hf2.trans h2)
      obtain ⟨l21, e21, h21, r21⟩ :=
        applyCall_none_parts c1 (applyCall st c2) (hf1.trans h1)
      refine ⟨?_, ?_, ?_, ?_⟩
      · rw [l12, l1a, l21, l2a, updateFirst_append_nomatch _ _ _ _ hm]
      · rw [e12, e1a, e21, e2a]
        exact append_two_swap _ _ _
      · rw [h12, h1a, h21, h2a]
        exact append_two_swap _ _ _
      · rw [r12, r1a, r21, r2a]
        exact updateRunCounters_comm st.run _ _
  | some l1 =>
    have hkey1 : listingKey l1 = callKey c1 :=
      keyMatch_of_call (List.find?_some h1)
    cases h2 : findListing st.db c2.iid c2.pid c2.record.url with
    | none =>
      have hm : keyMatch c1.iid c1.pid c1.record.url
          (newListingOf c2.iid c2.pid c2.record c2.now) = false :=
        keyMatch_newListing_ne c2 c1 hk'
      obtain ⟨l1a, e1a, h1a, r1a⟩ := applyCall_some_parts c1 st l1 h1
      obtain ⟨l2a, e2a, h2a, r2a⟩ := applyCall_none_parts c2 st h2
      obtain ⟨l12, e12, h12, r12⟩ :=
        applyCall_none_parts c2 (applyCall st c1) (hf2.trans h2)
      obtain ⟨l21, e21, h21, r21⟩ :=
        applyCall_some_parts c1 (applyCall st c2) l1 (hf1.trans h1)
      refine ⟨?_, ?_, ?_, ?_⟩
      · rw [l12, l1a, l21, l2a, updateFirst_append_nomatch _ _ _ _ hm]
      · rw [e12, e1a, e21, e2a]
        exact append_two_swap _ _ _
      · rw [h12, h1a, h21, h2a]
        exact append_two_swap _ _ _
      · rw [r12, r1a, r21, r2a]
        exact updateRunCounters_comm st.run _ _
    | some l2 =>
      have hkey2 : listingKey l2 = callKey c2 :=
        keyMatch_of_call (List.find?_some h2)
      obtain ⟨l1a, e1a, h1a, r1a⟩ := applyCall_some_parts c1 st l1 h1
      obtain ⟨l2a, e2a, h2a, r2a⟩ := applyCall_some_parts c2 st l2 h2
      obtain ⟨l12, e12, h12, r12⟩ :=
        applyCall_some_parts c2 (applyCall st c1) l2 (hf2.trans h2)
      obtain ⟨l21, e21, h21, r21⟩ :=
        applyCall_some_parts c1 (applyCall st c2) l1 (hf1.trans h1)
      refine ⟨?_, ?_, ?_, ?_⟩
      · rw [l12, l1a, l21, l2a]
        rw [updateFirst_comm _ _ _ _ _ (disjoint_keyMatch c2 c1 hk')
          (fun a => keyMatch_updExisting_ne c2 c1 l2 hkey2 hk')
          (fun a => keyMatch_updExisting_ne c1 c2 l1 hkey1 hk)]
      · rw [e12, e1a, e21, e2a]
        exact append_two_swap _ _ _
      · rw [h12, h1a, h21, h2a]
        exact append_two_swap _ _ _
      · rw [r12, r1a, r21, r2a]
        exact updateRunCounters_comm st.run _ _

theorem updated_map_key (c : ReconCall) (st : EngineState) (l0 : Listing)
    (hf : findListing st.db c.iid c.pid c.record.url = some l0) :
    (updateFirst (keyMatch c.iid c.pid c.record.url)
        (fun _ => updateExisting c.record c.now l0) st.db.listings).map
      listingKey = st.db.listings.map listingKey := by
  apply updateFirst_map
  intro a ha
  rw [listingKey_updateExisting]
  rw [keyMatch_of_call ha, keyMatch_of_call (List.find?_some hf)]

theorem applyCall_congr (c : ReconCall) {s t : EngineState}
    (he : stateEquiv s t) (hinv : dedupKeysDistinct s.db.listings) :
    stateEquiv (applyCall s c) (applyCall t c) := by
  obtain ⟨hl, hev, hh, hrun⟩ := he
  have hfind : findListing s.db c.iid c.pid c.record.url
      = findListing t.db c.iid c.pid c.record.url :=
    find?_key_perm _ _ _ hl hinv
  cases hf : findListing s.db c.iid c.pid c.record.url with
  | none =>
    obtain ⟨ls1, es1, hs1, rs1⟩ := applyCall_none_parts c s hf
    obtain ⟨ls2, es2, hs2, rs2⟩ := applyCall_none_parts c t (hfind ▸ hf)
    refine ⟨?_, ?_, ?_, ?_⟩
    · rw [ls1, ls2]
      exact hl.append (List.Perm.refl _)
    · rw [es1, es2]
      exact hev.append (List.Perm.refl _)
    · rw [hs1, hs2]
      exact hh.append (List.Perm.refl _)
    · rw [rs1, rs2, hrun]
  | some l0 =>
    obtain ⟨ls1, es1, hs1, rs1⟩ := applyCall_some_parts c s l0 hf
    obtain ⟨ls2, es2, hs2, rs2⟩ := applyCall_some_parts c t l0 (hfind ▸ hf)
    have hlen_s : (s.db.listings.filter
        (keyMatch c.iid c.pid c.record.url)).length ≤ 1 :=
      filter_key_len _ _ _ _ hinv
    have hlen_t : (t.db.listings.filter
        (keyMatch c.iid c.pid c.record.url)).length ≤ 1 := by
      rw [← (hl.filter (keyMatch c.iid c.pid c.record.url)).length_eq]
      exact hlen_s
    refine ⟨?_, ?_, ?_, ?_⟩
    · rw [ls1, ls2, updateFirst_eq_map _ _ _ hlen_s,
        updateFirst_eq_map _ _ _ hlen_t]
      exact hl.map _
    · rw [es1, es2]
      exact hev.append (List.Perm.refl _)
    · rw [hs1, hs2]
      exact hh.append (List.Perm.refl _)
    · rw [rs1, rs2, hrun]

theorem runCalls_congr (cs : List ReconCall) :
    ∀ {s t : EngineState}, stateEquiv s t →
    dedupKeysDistinct s.db.listings →
    stateEquiv (runCalls cs s) (runCalls cs t) := by
  induction cs with
  | nil =>
    intro s t he _
    exact he
  | cons c cs ih =>
    intro s t he hinv
    show stateEquiv (runCalls cs (applyCall s c)) (runCalls cs (applyCall t c))
    exact ih (applyCall_congr c he hinv) (dedup_preserved s c hinv)

theorem runCalls_perm {cs cs' : List ReconCall} (hperm : cs.Perm cs') :
    ∀ (st : EngineState),
    cs.Pairwise (fun a b => callKey a ≠ callKey b) →
    dedupKeysDistinct st.db.listings →
    stateEquiv (runCalls cs st) (runCalls cs' st) := by
  induction hperm with
  | nil =>
    intro st _ _
    exact stateEquiv_refl _
  | cons x h ih =>
    intro st hpw hinv
    show stateEquiv (runCalls _ (applyCall st x)) (runCalls _ (applyCall st x))
    exact ih (applyCall st x) (List.pairwise_cons.mp hpw).2
      (dedup_preserved st x hinv)
  | swap x y l =>
    intro st hpw hinv
    have hxy : callKey y ≠ callKey x :=
      (List.pairwise_cons.mp hpw).1 x (List.mem_cons_self x l)
    show stateEquiv (runCalls l (applyCall (applyCall st y) x))
      (runCalls l (applyCall (applyCall st x) y))
    exact runCalls_congr l (applyCall_comm y x st hxy)
      (dedup_preserved _ x (dedup_preserved st y hinv))
  | trans h1 h2 ih1 ih2 =>
    intro st hpw hinv
    refine stateEquiv_trans (ih1 st hpw hinv) (ih2 st ?_ hinv)
    exact (h1.pairwise_iff (fun h he => h he.symm)).mp hpw

theorem find?_none_key_not_mem (iid pid : Nat) (url : String)
    (l : List Listing) :
    l.find? (keyMatch iid pid url) = none
      ↔ (iid, pid, url) ∉ l.map listingKey := by
  rw [List.find?_eq_none]
  constructor
  · intro h hmem
    obtain ⟨a, ha, hkey⟩ := List.mem_map.mp hmem
    exact h a ha (by simp [(keyMatch_iff iid pid url a).mpr hkey])
  · intro hnot a ha hcon
    exact hnot (List.mem_map.mpr
      ⟨a, ha, (keyMatch_iff iid pid url a).mp (by simpa using hcon)⟩)

theorem newItemKeys_append (E F : List ChangeEvent) :
    newItemKeys (E ++ F) = newItemKeys E ++ newItemKeys F := by
  simp [newItemKeys, List.filter_append]

theorem newItemKeys_existing (iid pid : Nat) (r : ScrapedItem) (l0 : Listing) :
    newItemKeys (existingEvents iid pid r l0) = [] := by
  unfold newItemKeys existingEvents
  cases hfp : priceChangeFires r l0 <;> cases hfs : statusChangeFires r l0 <;>
    simp [priceChangeEvent, statusChangeEvent, statusEventTypeOf_beq_new_item]

theorem newItemKeys_newItem (iid pid : Nat) (r : ScrapedItem) :
    newItemKeys [newItemEvent iid pid r] = [(iid, pid, r.url)] := by
  simp [newItemKeys, newItemEvent, eventKey]

theorem noDup_preserved (st : EngineState) (c : ReconCall)
    (hinv : noDupNewItem st) : noDupNewItem (applyCall st c) := by
  obtain ⟨hpw, hcov⟩ := hinv
  cases hf : findListing st.db c.iid c.pid c.record.url with
  | some l0 =>
    obtain ⟨hl, hev, _, _⟩ := applyCall_some_parts c st l0 hf
    constructor
    · rw [hev, newItemKeys_append, newItemKeys_existing, List.append_nil]
      exact hpw
    · intro k hk
      rw [hev, newItemKeys_append, newItemKeys_existing, List.append_nil] at hk
      rw [hl, updated_map_key c st l0 hf]
      exact hcov k hk
  | none =>
    obtain ⟨hl, hev, _, _⟩ := applyCall_none_parts c st hf
    have hnotmem : (c.iid, c.pid, c.record.url) ∉ st.db.listings.map listingKey :=
      (find?_none_key_not_mem c.iid c.pid c.record.url st.db.listings).mp hf
    constructor
    · rw [hev, newItemKeys_append, newItemKeys_newItem, List.pairwise_append]
      refine ⟨hpw, by simp, ?_⟩
      intro a ha b hb
      rw [List.mem_singleton] at hb
      subst hb
      intro hcon
      exact hnotmem (hcon ▸ hcov a ha)
    · intro k hk
      rw [hev, newItemKeys_append, newItemKeys_newItem] at hk
      rw [hl, List.map_append]
      rcases List.mem_append.mp hk with h | h
      · exact List.mem_append.mpr (Or.inl (hcov k h))
      · rw [List.mem_singleton] at h
        subst h
        refine List.mem_append.mpr (Or.inr ?_)
        simp [listingKey_newListingOf]

theorem noDup_runCalls (cs : List ReconCall) :
    ∀ (st : EngineState), noDupNewItem st → noDupNewItem (runCalls cs st) := by
  induction cs with
  | nil =>
    intro st h
    exact h
  | cons c cs ih =>
    intro st h
    exact ih (applyCall st c) (noDup_preserved st c h)

/-- C10: under the engine's coarse lock a concurrent schedule of platform
tasks is a sequential execution of their records in some order; for records
with pairwise distinct (item, platform, url) keys — as produced by N tasks
of distinct platforms — every execution order yields the same set of
listings, ChangeEvents and PriceHistory rows (equal up to row order) and
the same run counters, i.e. no lost updates; and along any call sequence,
no two `new_item` events are ever emitted for the same key. -/
theorem c10_order_independence :
    (∀ (cs cs' : List ReconCall) (st : EngineState),
      cs.Perm cs' →
      cs.Pairwise (fun a b => callKey a ≠ callKey b) →
      dedupKeysDistinct st.db.listings →
      stateEquiv (runCalls cs st) (runCalls cs' st)) ∧
    (∀ (cs : List ReconCall) (st : EngineState),
      noDupNewItem st → noDupNewItem (runCalls cs st)) :=
  ⟨fun _ _ st hperm hpw hinv => runCalls_perm hperm st hpw hinv,
   fun cs st h => noDup_runCalls cs st h⟩

/-- C10 witness: two records of the same product on two distinct platforms,
reconciled in both orders from an empty store. -/
theorem c10_order_independence_witness :
    stateEquiv
      (runCalls
        [{ iid := 1, pid := 2, record := sampleRecord ("available") (some 100),
           now := 5 },
         { iid := 1, pid := 3, record := sampleRecord ("sold") (some 200),
           now := 6 }] (stWith []))
      (runCalls
        [{ iid := 1, pid := 3, record := sampleRecord ("sold") (some 200),
           now := 6 },
         { iid := 1, pid := 2, record := sampleRecord ("available") (some 100),
           now := 5 }] (stWith [])) ∧
    noDupNewItem (runCalls
      [{ iid := 1, pid := 2, record := sampleRecord ("available") (some 100),
         now := 5 },
       { iid := 1, pid := 3, record := sampleRecord ("sold") (some 200),
         now := 6 }] (stWith [])) :=
  ⟨c10_order_independence.1
    [{ iid := 1, pid := 2, record := sampleRecord ("available") (some 100),
       now := 5 },
     { iid := 1, pid := 3, record := sampleRecord ("sold") (some 200),
       now := 6 }]
    [{ iid := 1, pid := 3, record := sampleRecord ("sold") (some 200),
       now := 6 },
     { iid := 1, pid := 2, record := sampleRecord ("available") (some 100),
       now := 5 }]
    (stWith [])
    (List.Perm.swap _ _ _)
    (by simp [List.pairwise_cons, callKey])
    (List.Pairwise.nil),
   c10_order_independence.2
    [{ iid := 1, pid := 2, record := sampleRecord ("available") (some 100),
       now := 5 },
     { iid := 1, pid := 3, record := sampleRecord ("sold") (some 200),
       now := 6 }]
    (stWith [])
    ⟨List.Pairwise.nil, by simp [newItemKeys, stWith]⟩⟩
